import Mathlib

/-!
Verification of the asheetbly spreadsheet virtual machine
(`asheetbly/sheet.py`) against its natural-language specification.

The Python source is shallowly embedded: Python floats are modelled as
exact rationals (`ℚ`), Python ints as `ℤ`, strings as `String`, and every
fallible Python operation returns `Except Err _` where `Err` enumerates the
exception classes the source can raise.  Recursions that Python performs on
shrinking numeric arguments are given a structural fuel argument (always
called with enough fuel, proved where needed) so that every definition
reduces by `rfl`/`decide`.
-/

/-- The exception classes raised by the source (both the four classes it
defines itself and the Python built-in exceptions its operations can raise). -/
inductive Err where
  | InvalidA1Notation (s : String)
  | InvalidOpcode (s : String)
  | ArithmeticError
  | InvalidArgument
  | IndexError
  | AssertionError (msg : String)
  | AttributeError (name : String)
  | TypeError
  | ZeroDivisionError
  | ValueError
  | EOFError
deriving DecidableEq, Repr

/-- A Python runtime value as it occurs in this program: a float (modelled
exactly as a rational), an int (pushed only by `do_RANDINT`), or a str. -/
inductive Value where
  | Number (q : ℚ)
  | IntVal (z : ℤ)
  | Text (s : String)
deriving DecidableEq, Repr

/-- `type(v) == float` in Python. -/
def Value.isFloat : Value → Bool
  | .Number _ => true
  | _ => false

/-- `type(v) == str` in Python. -/
def Value.isText : Value → Bool
  | .Text _ => true
  | _ => false

/-- ASCII decimal digit, `[0-9]`. -/
def isDigitChar (c : Char) : Bool := 48 ≤ c.toNat && c.toNat ≤ 57

/-- ASCII letter, `[A-Za-z]` (the character class of `A1_NOTATION`). -/
def isA1Letter (c : Char) : Bool :=
  (65 ≤ c.toNat && c.toNat ≤ 90) || (97 ≤ c.toNat && c.toNat ≤ 122)

/-- Numeric value of a digit character. -/
def digitVal (c : Char) : Nat := c.toNat - 48

/-- Value of a digit string (what Python's `int(...)` computes on the digit
group produced by the `A1_NOTATION` regex). -/
def digitsVal (l : List Char) : Nat := l.foldl (fun a c => a * 10 + digitVal c) 0

/-- Decimal digit characters of `n`, most significant first (empty for 0);
`fuel` is a structural bound on the recursion depth, `fuel = n` suffices. -/
def natDigitsAux : Nat → Nat → List Char
  | 0, _ => []
  | f + 1, n =>
    if n = 0 then []
    else natDigitsAux f (n / 10) ++ [Char.ofNat (48 + n % 10)]

/-- Decimal digit characters of `n`, most significant first (empty for 0). -/
def natDigits (n : Nat) : List Char := natDigitsAux n n

/-- Decimal digit characters of `n`, `['0']` for 0 (Python's `str(n)` for a
nonnegative int). -/
def natChars (n : Nat) : List Char := if n = 0 then ['0'] else natDigits n

/-- Python `str(n)` for a nonnegative int. -/
def natToStr (n : Nat) : String := String.mk (natChars n)

/-- Python `str(z)` for an int. -/
def intToStr (z : ℤ) : String :=
  String.mk ((if z < 0 then ['-'] else []) ++ natChars z.natAbs)

/-- Strip one optional leading sign character; returns whether it was `-`. -/
def stripSign (cs : List Char) : Bool × List Char :=
  if cs.head? = some '-' then (true, cs.tail)
  else if cs.head? = some '+' then (false, cs.tail)
  else (false, cs)

/-- Exponent suffix of a Python float literal: either nothing, or
`[eE][+-]?digits`; multiplies/divides the mantissa by the power of ten. -/
def parseExpPart (cs : List Char) (base : ℚ) : Option ℚ :=
  if cs = [] then some base
  else if cs.head? = some 'e' ∨ cs.head? = some 'E' then
    let st := stripSign cs.tail
    let ed := st.2.takeWhile isDigitChar
    let rest := st.2.dropWhile isDigitChar
    if ed = [] ∨ rest ≠ [] then none
    else some (if st.1 then base / 10 ^ digitsVal ed else base * 10 ^ digitsVal ed)
  else none

/-- Python `float(s)` on a finite decimal literal: optional sign, digits with
an optional decimal point (at least one digit overall), optional exponent.
The special forms `inf`/`nan`, embedded underscores and surrounding
whitespace accepted by CPython are outside the modelled fragment. -/
def pyFloatCore (cs : List Char) : Option ℚ :=
  let st := stripSign cs
  let sgn : ℚ := if st.1 then -1 else 1
  let ip := st.2.takeWhile isDigitChar
  let cs2 := st.2.dropWhile isDigitChar
  if cs2.head? = some '.' then
    let cs3 := cs2.tail
    let fp := cs3.takeWhile isDigitChar
    let cs4 := cs3.dropWhile isDigitChar
    if ip = [] ∧ fp = [] then none
    else parseExpPart cs4 (sgn * ((digitsVal ip : ℚ) + (digitsVal fp : ℚ) / 10 ^ fp.length))
  else
    if ip = [] then none
    else parseExpPart cs2 (sgn * (digitsVal ip : ℚ))

/-- `_safe_float`: `float(n)` returning `None` instead of raising. -/
def _safe_float (s : String) : Option ℚ := pyFloatCore s.toList

/-- Number of factors `p` in `n` (0 when `p < 2` or `n = 0`); `fuel = n`
suffices since the recursion argument `n / p` strictly decreases. -/
def multP (p : Nat) : Nat → Nat → Nat
  | 0, _ => 0
  | f + 1, n =>
    if 2 ≤ p ∧ n ≠ 0 ∧ n % p = 0 then 1 + multP p f (n / p) else 0

/-- Smallest `k ≤ d` with `d ∣ 10 ^ k`, if one exists. -/
def decExp (d : Nat) : Option Nat := (List.range (d + 1)).find? fun k => 10 ^ k % d = 0

/-- Zero-pad a digit list on the left to length `k`. -/
def padZeros (k : Nat) (l : List Char) : List Char :=
  List.replicate (k - l.length) '0' ++ l

/-- Character list of Python's `str(f)` for a float modelled by `q`.  For the
dyadic rationals that model actual IEEE doubles (denominator a power of two,
hence dividing a power of ten) this is the exact decimal expansion with a
mandatory fractional part, e.g. `5 ↦ "5.0"`, `157/50 ↦ "3.14"`, matching
CPython's shortest round-tripping repr on such values.  Rationals whose
denominator is not 2-5-smooth cannot model any double; their rendering is a
placeholder. -/
def floatChars (q : ℚ) : List Char :=
  let sign : List Char := if q < 0 then ['-'] else []
  let na := q.num.natAbs
  match decExp q.den with
  | some k =>
    if k = 0 then sign ++ natChars na ++ ['.', '0']
    else
      let m := na * 10 ^ k / q.den
      sign ++ natChars (m / 10 ^ k) ++ '.' :: padZeros k (natDigits (m % 10 ^ k))
  | none => sign ++ natChars na ++ '/' :: natChars q.den

/-- Python `str(f)` for a float modelled by `q`. -/
def floatStr (q : ℚ) : String := String.mk (floatChars q)

/-- Python `str(v)`. -/
def pyStr : Value → String
  | .Number q => floatStr q
  | .IntVal z => intToStr z
  | .Text s => s

/-- Python `==` between program values: numbers compare numerically across
int/float, strings compare as strings, mixed number/string is `False`. -/
def pyEq : Value → Value → Bool
  | .Number a, .Number b => a == b
  | .Number a, .IntVal b => a == (b : ℚ)
  | .IntVal a, .Number b => (a : ℚ) == b
  | .IntVal a, .IntVal b => a == b
  | .Text a, .Text b => a == b
  | _, _ => false

/-- Lexicographic comparison of strings by code point (Python `<` on `str`). -/
def charsLt : List Char → List Char → Bool
  | [], [] => false
  | [], _ :: _ => true
  | _ :: _, [] => false
  | a :: as, b :: bs =>
    if a.toNat < b.toNat then true
    else if b.toNat < a.toNat then false
    else charsLt as bs

/-- Python `<` between program values; mixed number/string raises `TypeError`. -/
def pyLtB : Value → Value → Except Err Bool
  | .Number a, .Number b => pure (decide (a < b))
  | .Number a, .IntVal b => pure (decide (a < (b : ℚ)))
  | .IntVal a, .Number b => pure (decide ((a : ℚ) < b))
  | .IntVal a, .IntVal b => pure (decide (a < b))
  | .Text a, .Text b => pure (charsLt a.toList b.toList)
  | _, _ => throw .TypeError

/-- Python `>` between program values. -/
def pyGtB (a b : Value) : Except Err Bool := pyLtB b a

/-- Python `int(f)` on a float: truncation toward zero. -/
def truncQ (q : ℚ) : ℤ :=
  if q < 0 then -(((-q.num).toNat / q.den : ℕ) : ℤ) else ((q.num.toNat / q.den : ℕ) : ℤ)

/-- Python float `%`: `a - b * floor(a / b)` (sign follows the divisor). -/
def pyFMod (a b : ℚ) : ℚ := a - b * ⌊a / b⌋

/-- Whitespace for Python's `str.rstrip()`. -/
def isSpaceChar (c : Char) : Bool :=
  c.toNat = 32 || c.toNat = 9 || c.toNat = 10 || c.toNat = 13 || c.toNat = 11 || c.toNat = 12

/-- Python `v.rstrip()`: strips trailing whitespace from a str; any other
type has no `rstrip` attribute. -/
def pyRstrip : Value → Except Err String
  | .Text s => pure (String.mk ((s.toList.reverse.dropWhile isSpaceChar).reverse))
  | _ => throw (.AttributeError "rstrip")

/-!  The coordinate codec (`_letters_to_numbers`, `_numbers_to_letters`,
`A1_NOTATION`). -/

/-- `string.ascii_uppercase`. -/
def ALPHABET : List Char :=
  ['A','B','C','D','E','F','G','H','I','J','K','L','M',
   'N','O','P','Q','R','S','T','U','V','W','X','Y','Z']

/-- `_letters_to_numbers`: bijective base-26 value of a letter string
(case-insensitive).  `ALPHABET.index(c.upper())` is modelled by `indexOf`;
on the letters produced by the `A1_NOTATION` regex the character is always
present. -/
def _letters_to_numbers (letters : List Char) : Nat :=
  letters.foldl (fun n c => n * 26 + (ALPHABET.indexOf c.toUpper + 1)) 0

/-- `_numbers_to_letters`: bijective base-26 encoding with digits A–Z.
`fuel` is a structural bound on the recursion depth; `fuel = numbers`
suffices because the recursive argument `q` strictly decreases. -/
def _numbers_to_lettersAux : Nat → Nat → List Char
  | 0, _ => []
  | f + 1, numbers =>
    let q0 := numbers / 26
    let r0 := numbers % 26
    let q := if r0 = 0 then q0 - 1 else q0
    let r := if r0 = 0 then 26 else r0
    if q = 0 then [ALPHABET.getD (r - 1) 'A']
    else if q ≤ 26 then [ALPHABET.getD (q - 1) 'A', ALPHABET.getD (r - 1) 'A']
    else _numbers_to_lettersAux f q ++ [ALPHABET.getD (r - 1) 'A']

/-- `_numbers_to_letters` (source is called with positive arguments only,
guarded by the assertion in `index_to_a1`). -/
def _numbers_to_letters (numbers : Nat) : List Char :=
  _numbers_to_lettersAux numbers numbers

/-- The match of `A1_NOTATION = ^([A-Za-z]+)([0-9]+)$` against `s`: the two
capture groups, or `none` when the pattern does not match.  The split is
unique because the letter and digit classes are disjoint, so greedy
`takeWhile` reproduces the regex groups exactly. -/
def splitA1 (s : String) : Option (List Char × List Char) :=
  let cs := s.toList
  let letters := cs.takeWhile isA1Letter
  let rest := cs.dropWhile isA1Letter
  if letters ≠ [] ∧ rest ≠ [] ∧ rest.all isDigitChar then some (letters, rest) else none

/-!  `Sheet`. -/

/-- `Sheet`: a sparse mapping from `(column, row)` pairs to stored values,
modelled as an association list (last write wins, like a dict). -/
structure Sheet where
  values : List ((Nat × Nat) × Value)
deriving DecidableEq, Repr

/-- `self.values.get(tuple(index))`. -/
def Sheet.getCell (sh : Sheet) (k : Nat × Nat) : Option Value :=
  (sh.values.find? fun p => p.1 == k).map Prod.snd

/-- `self.values[tuple(index)] = v` (dict update). -/
def Sheet.setCell (sh : Sheet) (k : Nat × Nat) (v : Value) : Sheet :=
  ⟨(k, v) :: sh.values.filter fun p => ¬ p.1 == k⟩

/-- `Sheet.a1_to_index`: parses A1 syntax into a `(column, row)` index.
Python's `re.match` raises `TypeError` when handed a non-string (this is
reachable: handlers pass cell values straight in). -/
def Sheet.a1_to_index (a1 : Value) : Except Err (Nat × Nat) :=
  match a1 with
  | .Text s =>
    match splitA1 s with
    | some (letters, numbers) => pure (_letters_to_numbers letters, digitsVal numbers)
    | none => throw ( .InvalidA1Notation s)
  | _ => throw .TypeError

/-- `Sheet.index_to_a1`: converts a `(column, row)` index into A1 syntax.
The source asserts that both components are positive ints (the pair shape
and int-ness are intrinsic to the embedding's types). -/
def Sheet.index_to_a1 (index : Nat × Nat) : Except Err String :=
  if index.1 = 0 ∨ index.2 = 0 then throw (.AssertionError "Invalid index!")
  else pure (String.mk (_numbers_to_letters index.1 ++ natChars index.2))

/-- `Sheet.interpret_value`: coerces to str, then returns the float value if
`_safe_float` gives a truthy result (the walrus `if (n:=_safe_float(val)):`
is false both for `None` and for the float `0.0`), else the string. -/
def Sheet.interpret_value (val : Value) : Value :=
  let s := pyStr val
  match _safe_float s with
  | some n => if n = 0 then .Text s else .Number n
  | none => .Text s

/-- `Sheet.read`: the stored value (or `default`) re-interpreted.  Python's
default for `default` is the empty string. -/
def Sheet.read (sh : Sheet) (index : Nat × Nat) (default : Value) : Value :=
  Sheet.interpret_value ((sh.getCell index).getD default)

/-- `Sheet.write`: stores the interpreted value. -/
def Sheet.write (sh : Sheet) (index : Nat × Nat) (value : Value) : Sheet :=
  sh.setCell index (Sheet.interpret_value value)

/-!  `Stack`.  The frame markers are rationals because `push_frame` receives
the argument count as a Python float from `do_CALL` and stores
`len(self.values) - args` unconverted. -/

/-- `Stack`: the operand stack; the end of `values` is the top. -/
structure Stack where
  values : List Value
  frames : List ℚ
deriving DecidableEq, Repr

/-- `Stack.push`. -/
def Stack.push (st : Stack) (v : Value) : Stack :=
  { st with values := st.values ++ [v] }

/-- `Stack.pop`: pops the top value; with an active frame it first checks
`len(self.values) <= self.frames[-1]`, and popping from an empty list raises
`IndexError` either way. -/
def Stack.pop (st : Stack) : Except Err (Value × Stack) :=
  match st.frames.getLast? with
  | some b =>
    if (st.values.length : ℚ) ≤ b then throw .IndexError
    else
      match st.values.getLast? with
      | some v => pure (v, { st with values := st.values.dropLast })
      | none => throw .IndexError
  | none =>
    match st.values.getLast? with
    | some v => pure (v, { st with values := st.values.dropLast })
    | none => throw .IndexError

/-- `Stack.popn`: removes and returns the top `n` values in bottom-to-top
order (`self.values[-n:]`), with two underflow assertions. -/
def Stack.popn (st : Stack) (n : Nat) : Except Err (List Value × Stack) := do
  match st.frames.getLast? with
  | some b =>
    if ¬ ((st.values.length : ℚ) - n + 1 > b) then throw (.AssertionError "Stack underflow!")
    else pure ()
  | none => pure ()
  if st.values.length < n then throw (.AssertionError "Stack underflow!")
  else
    let start := if n = 0 then 0 else st.values.length - n
    pure (st.values.drop start, { st with values := st.values.take start })

/-- `Stack.push_frame`: records a frame boundary at depth
`len(self.values) - args` (falsy `args` becomes 0, which for the numeric
arguments reaching this code changes nothing). -/
def Stack.push_frame (st : Stack) (args : ℚ) : Except Err Stack :=
  let frametop : ℚ := (st.values.length : ℚ) - args
  match st.frames.getLast? with
  | some b =>
    if frametop < b then throw (.AssertionError "Frame overflow!")
    else pure { st with frames := st.frames ++ [frametop] }
  | none =>
    if frametop < 0 then throw (.AssertionError "Frame overflow!")
    else pure { st with frames := st.frames ++ [frametop] }

/-- `Stack.pop_frame`: drops the most recent frame marker, if any. -/
def Stack.pop_frame (st : Stack) : Stack :=
  { st with frames := st.frames.dropLast }

/-- `Stack.peek`: the source computes `index = len(self.values) - n` and,
whenever any frame exists, checks `index <= self.frames[1]` — indexing the
frame list at the fixed position 1 (not `-1`); with exactly one active frame
that very subscript raises `IndexError`. -/
def Stack.peek (st : Stack) (n : Nat) : Except Err Value := do
  let index : Int := (st.values.length : Int) - n
  match st.frames with
  | [] => pure ()
  | _ :: rest =>
    match rest.head? with
    | none => throw .IndexError
    | some b => if (index : ℚ) ≤ b then throw .IndexError else pure ()
  if index < 0 then throw .IndexError
  else
    match st.values.get? index.toNat with
    | some v => pure v
    | none => throw .IndexError

/-!  `Interpreter`.  The console and the random module are external
collaborators; they are modelled by explicit streams carried in the state
(`inputs`/`output` for stdin/stdout, `randq`/`randz` for the values chosen
by `random.uniform`/`random.random` and `random.randint`, clamped into the
requested range so the oracle respects the library's contract). -/

/-- The interpreter state (`self.sheet`, `self.ip`, `self.stack`,
`self.cond`, `self.ret_stack`) together with the modelled external world. -/
structure Interp where
  sheet : Sheet
  ip : Nat × Nat
  stack : Stack
  cond : Bool
  ret_stack : List (Nat × Nat)
  inputs : List String
  output : List String
  randq : List ℚ
  randz : List ℤ
deriving DecidableEq, Repr

/-- `Interpreter.__init__` with the default start address, followed by
`reset()`; the world streams start as given. -/
def mkInterp (sh : Sheet) : Interp :=
  { sheet := sh, ip := (1, 1), stack := ⟨[], []⟩, cond := false, ret_stack := [],
    inputs := [], output := [], randq := [], randz := [] }

/-- `Interpreter.argument`: the index of the n-th argument cell
(`column + n`, same row), after asserting the index is a pair of positive
ints. -/
def Interpreter.argument (index : Nat × Nat) (n : Nat) : Except Err (Nat × Nat) :=
  if index.1 = 0 ∨ index.2 = 0 then throw (.AssertionError "Invalid index!")
  else pure (index.1 + n, index.2)

/-- `Interpreter._binary_arithmetic_check`: pops two values (mutating the
stack even when the subsequent type check fails) and raises
`ArithmeticError` unless both are floats.  `popn 2` always yields exactly
two items, so the Python tuple unpacking in the callers is total. -/
def _binary_arithmetic_check (st : Stack) : Except Err ((ℚ × ℚ) × Stack) := do
  let (items, st2) ← st.popn 2
  match items with
  | [.Number a, .Number b] => pure ((a, b), st2)
  | _ => throw .ArithmeticError

/-- `do_LOAD_CELL`. -/
def do_LOAD_CELL (s : Interp) : Except Err (Interp × Bool) := do
  let a1 ← Interpreter.argument s.ip 1
  let address ← Sheet.a1_to_index (s.sheet.read a1 (.Text ""))
  let value := s.sheet.read address (.Text "")
  pure ({ s with stack := s.stack.push value }, false)

/-- `do_STORE_CELL`. -/
def do_STORE_CELL (s : Interp) : Except Err (Interp × Bool) := do
  let a1 ← Interpreter.argument s.ip 1
  let address ← Sheet.a1_to_index (s.sheet.read a1 (.Text ""))
  let (value, st2) ← s.stack.pop
  pure ({ s with stack := st2, sheet := s.sheet.write address value }, false)

/-- `do_DROP`. -/
def do_DROP (s : Interp) : Except Err (Interp × Bool) := do
  let (_, st2) ← s.stack.pop
  pure ({ s with stack := st2 }, false)

/-- `do_DUP`. -/
def do_DUP (s : Interp) : Except Err (Interp × Bool) := do
  let v ← s.stack.peek 1
  pure ({ s with stack := s.stack.push v }, false)

/-- `do_OVER`. -/
def do_OVER (s : Interp) : Except Err (Interp × Bool) := do
  let v ← s.stack.peek 2
  pure ({ s with stack := s.stack.push v }, false)

/-- `do_SWAP`: pops two and pushes them back reversed. -/
def do_SWAP (s : Interp) : Except Err (Interp × Bool) := do
  let (items, st2) ← s.stack.popn 2
  pure ({ s with stack := ⟨st2.values ++ items.reverse, st2.frames⟩ }, false)

/-- `do_ADD`. -/
def do_ADD (s : Interp) : Except Err (Interp × Bool) := do
  let ((item1, item2), st2) ← _binary_arithmetic_check s.stack
  pure ({ s with stack := st2.push (.Number (item1 + item2)) }, false)

/-- `do_SUB`. -/
def do_SUB (s : Interp) : Except Err (Interp × Bool) := do
  let ((item1, item2), st2) ← _binary_arithmetic_check s.stack
  pure ({ s with stack := st2.push (.Number (item1 - item2)) }, false)

/-- `do_MULT`. -/
def do_MULT (s : Interp) : Except Err (Interp × Bool) := do
  let ((item1, item2), st2) ← _binary_arithmetic_check s.stack
  pure ({ s with stack := st2.push (.Number (item1 * item2)) }, false)

/-- `do_DIV`: true division; Python raises `ZeroDivisionError` on a zero
float divisor. -/
def do_DIV (s : Interp) : Except Err (Interp × Bool) := do
  let ((item1, item2), st2) ← _binary_arithmetic_check s.stack
  if item2 = 0 then throw .ZeroDivisionError
  else pure ({ s with stack := st2.push (.Number (item1 / item2)) }, false)

/-- `do_FDIV`: identical body to `do_DIV` (also true division). -/
def do_FDIV (s : Interp) : Except Err (Interp × Bool) := do
  let ((item1, item2), st2) ← _binary_arithmetic_check s.stack
  if item2 = 0 then throw .ZeroDivisionError
  else pure ({ s with stack := st2.push (.Number (item1 / item2)) }, false)

/-- `do_MOD`: Python float `%`; raises `ZeroDivisionError` on zero divisor. -/
def do_MOD (s : Interp) : Except Err (Interp × Bool) := do
  let ((item1, item2), st2) ← _binary_arithmetic_check s.stack
  if item2 = 0 then throw .ZeroDivisionError
  else pure ({ s with stack := st2.push (.Number (pyFMod item1 item2)) }, false)

/-- `do_UPPER`. -/
def do_UPPER (s : Interp) : Except Err (Interp × Bool) := do
  let (v, st2) ← s.stack.pop
  pure ({ s with stack := st2.push (.Text (pyStr v).toUpper) }, false)

/-- `do_LOWER`. -/
def do_LOWER (s : Interp) : Except Err (Interp × Bool) := do
  let (v, st2) ← s.stack.pop
  pure ({ s with stack := st2.push (.Text (pyStr v).toLower) }, false)

/-- `do_CONCAT`: pops two, coerces both to str, concatenates in
bottom-to-top order and pushes the re-interpreted result. -/
def do_CONCAT (s : Interp) : Except Err (Interp × Bool) := do
  let (items, st2) ← s.stack.popn 2
  match items with
  | [v1, v2] =>
    pure ({ s with stack := st2.push (Sheet.interpret_value (.Text (pyStr v1 ++ pyStr v2))) }, false)
  | _ => throw .ValueError

/-- `do_IN`: prompts with the rstripped argument cell plus a space, reads a
line (EOF raises `EOFError`), pushes the re-interpreted line. -/
def do_IN (s : Interp) : Except Err (Interp × Bool) := do
  let a1 ← Interpreter.argument s.ip 1
  let prompt ← pyRstrip (s.sheet.read a1 (.Text ""))
  match s.inputs with
  | [] => throw .EOFError
  | line :: rest =>
    pure ({ s with stack := s.stack.push (Sheet.interpret_value (.Text line)),
                   inputs := rest, output := s.output ++ [prompt ++ " "] }, false)

/-- `do_OUT`: pops and prints one value. -/
def do_OUT (s : Interp) : Except Err (Interp × Bool) := do
  let (v, st2) ← s.stack.pop
  pure ({ s with stack := st2, output := s.output ++ [pyStr v] }, false)

/-- `do_TEST`: condition flag gets `peek(1) == 0` (the literal 0 is an int). -/
def do_TEST (s : Interp) : Except Err (Interp × Bool) := do
  let p ← s.stack.peek 1
  pure ({ s with cond := pyEq p (.IntVal 0) }, false)

/-- `do_COMPARE`: reads argument 1, then inside `try` resolves it as an
address, reads that cell and compares `peek(1)` with it; on any failure in
the `try` block falls back to `peek(2) == peek(1)` (whose own failures
propagate). -/
def do_COMPARE (s : Interp) : Except Err (Interp × Bool) := do
  let a1 ← Interpreter.argument s.ip 1
  let addrv := s.sheet.read a1 (.Text "")
  match (do
      let address ← Sheet.a1_to_index addrv
      let value := s.sheet.read address (.Text "")
      let p ← s.stack.peek 1
      pure (pyEq p value) : Except Err Bool) with
  | .ok b => pure ({ s with cond := b }, false)
  | .error _ => do
    let p2 ← s.stack.peek 2
    let p1 ← s.stack.peek 1
    pure ({ s with cond := pyEq p2 p1 }, false)

/-- `do_LT`: like `do_COMPARE` with `<` (which raises `TypeError` on mixed
number/string operands, also triggering the fallback). -/
def do_LT (s : Interp) : Except Err (Interp × Bool) := do
  let a1 ← Interpreter.argument s.ip 1
  let addrv := s.sheet.read a1 (.Text "")
  match (do
      let address ← Sheet.a1_to_index addrv
      let value := s.sheet.read address (.Text "")
      let p ← s.stack.peek 1
      pyLtB p value : Except Err Bool) with
  | .ok b => pure ({ s with cond := b }, false)
  | .error _ => do
    let p2 ← s.stack.peek 2
    let p1 ← s.stack.peek 1
    let b ← pyLtB p2 p1
    pure ({ s with cond := b }, false)

/-- `do_GT`: like `do_COMPARE` with `>`. -/
def do_GT (s : Interp) : Except Err (Interp × Bool) := do
  let a1 ← Interpreter.argument s.ip 1
  let addrv := s.sheet.read a1 (.Text "")
  match (do
      let address ← Sheet.a1_to_index addrv
      let value := s.sheet.read address (.Text "")
      let p ← s.stack.peek 1
      pyGtB p value : Except Err Bool) with
  | .ok b => pure ({ s with cond := b }, false)
  | .error _ => do
    let p2 ← s.stack.peek 2
    let p1 ← s.stack.peek 1
    let b ← pyGtB p2 p1
    pure ({ s with cond := b }, false)

/-- `do_INVERT_COND`. -/
def do_INVERT_COND (s : Interp) : Except Err (Interp × Bool) :=
  pure ({ s with cond := ¬ s.cond }, false)

/-- `do_JUMP`: resolves argument 1 as an address, sets the instruction
pointer there and returns `True` (no auto-increment). -/
def do_JUMP (s : Interp) : Except Err (Interp × Bool) := do
  let a1 ← Interpreter.argument s.ip 1
  let address ← Sheet.a1_to_index (s.sheet.read a1 (.Text ""))
  pure ({ s with ip := address }, true)

/-- `do_JUMP_IF`: `do_JUMP` when the flag is set, else falls through
(returning Python `None`, hence auto-increment). -/
def do_JUMP_IF (s : Interp) : Except Err (Interp × Bool) :=
  if s.cond then do_JUMP s else pure (s, false)

/-- `do_CALL`: resolves the target, reads the argument count (argument 2,
dict default 0 — which `interpret_value` turns into the string "0", caught
by the `type(args)==str` fallback to 0), pushes a stack frame reserving that
many values, appends the pre-call instruction pointer to the return stack,
jumps, and suppresses auto-increment. -/
def do_CALL (s : Interp) : Except Err (Interp × Bool) := do
  let a1 ← Interpreter.argument s.ip 1
  let address ← Sheet.a1_to_index (s.sheet.read a1 (.Text ""))
  let a2 ← Interpreter.argument s.ip 2
  let args := s.sheet.read a2 (.IntVal 0)
  let argsQ : ℚ :=
    match args with
    | .Text _ => 0
    | .Number q => q
    | .IntVal z => (z : ℚ)
  let st2 ← s.stack.push_frame argsQ
  pure ({ s with stack := st2, ret_stack := s.ret_stack ++ [s.ip], ip := address }, true)

/-- `do_CALL_IF`: `do_CALL` when the flag is set. -/
def do_CALL_IF (s : Interp) : Except Err (Interp × Bool) :=
  if s.cond then do_CALL s else pure (s, false)

/-- `do_RETURN`: pops the return stack into the instruction pointer
(`IndexError` when empty), pops the stack frame, and lets auto-increment
move past the original CALL cell. -/
def do_RETURN (s : Interp) : Except Err (Interp × Bool) :=
  match s.ret_stack.getLast? with
  | none => throw .IndexError
  | some a =>
    pure ({ s with ip := a, ret_stack := s.ret_stack.dropLast,
                   stack := s.stack.pop_frame }, false)

/-- `do_RAND`: bounds from arguments 1 and 2 (defaults 0 and 1; non-float
values fall back to the defaults), then `random.random()` when the bounds
are exactly (0,1), else `random.uniform(m,n)`.  The library's choice is the
head of the `randq` oracle stream, clamped to the requested range. -/
def do_RAND (s : Interp) : Except Err (Interp × Bool) := do
  let a1 ← Interpreter.argument s.ip 1
  let m0 := s.sheet.read a1 (.IntVal 0)
  let a2 ← Interpreter.argument s.ip 2
  let n0 := s.sheet.read a2 (.IntVal 1)
  let m : ℚ := match m0 with | .Number q => q | _ => 0
  let n : ℚ := match n0 with | .Number q => q | _ => 1
  let (x, rq) : ℚ × List ℚ := match s.randq with | [] => (0, []) | x :: t => (x, t)
  if m = 0 ∧ n = 1 then
    pure ({ s with stack := s.stack.push (.Number (if 0 ≤ x ∧ x < 1 then x else 0)),
                   randq := rq }, false)
  else
    let chosen : Value := .Number (if m ≤ x ∧ x ≤ n ∨ n ≤ x ∧ x ≤ m then x else m)
    pure ({ s with stack := s.stack.push chosen, randq := rq }, false)

/-- `do_RANDINT`: argument 1 must be a float (else `InvalidArgument`); both
bounds are truncated to int; a falsy second bound turns the call into
`randint(1, m)`; `randint(m, None)` raises `TypeError` and an empty range
raises `ValueError`.  `random.randint` returns a Python int — modelled by
the head of the `randz` oracle stream clamped into `[m, n]` — and that int
is pushed unconverted. -/
def do_RANDINT (s : Interp) : Except Err (Interp × Bool) := do
  let a1 ← Interpreter.argument s.ip 1
  let m0 := s.sheet.read a1 (.Text "")
  let a2 ← Interpreter.argument s.ip 2
  let n0 := s.sheet.read a2 (.Text "")
  match m0 with
  | .Number mq =>
    let m : ℤ := truncQ mq
    let nOpt : Option ℤ := match n0 with | .Number nq => some (truncQ nq) | _ => none
    let (m, nOpt) : ℤ × Option ℤ :=
      if m ≠ 0 ∧ (nOpt = none ∨ nOpt = some 0) then ((1 : ℤ), some m) else (m, nOpt)
    match nOpt with
    | none => throw .TypeError
    | some n =>
      if m > n then throw .ValueError
      else
        let (x, rz) : ℤ × List ℤ := match s.randz with | [] => (0, []) | x :: t => (x, t)
        pure ({ s with stack := s.stack.push (.IntVal (if m ≤ x ∧ x ≤ n then x else m)),
                       randz := rz }, false)
  | _ => throw .InvalidArgument

/-- `getattr(self, "do_" + opcode.upper())`: the method lookup table.
Returns `none` — Python raises `AttributeError` — when no such handler
exists. -/
def getHandler (name : String) : Option (Interp → Except Err (Interp × Bool)) :=
  match name with
  | "do_LOAD_CELL" => some do_LOAD_CELL
  | "do_STORE_CELL" => some do_STORE_CELL
  | "do_DROP" => some do_DROP
  | "do_DUP" => some do_DUP
  | "do_OVER" => some do_OVER
  | "do_SWAP" => some do_SWAP
  | "do_ADD" => some do_ADD
  | "do_SUB" => some do_SUB
  | "do_MULT" => some do_MULT
  | "do_DIV" => some do_DIV
  | "do_FDIV" => some do_FDIV
  | "do_MOD" => some do_MOD
  | "do_UPPER" => some do_UPPER
  | "do_LOWER" => some do_LOWER
  | "do_CONCAT" => some do_CONCAT
  | "do_IN" => some do_IN
  | "do_OUT" => some do_OUT
  | "do_TEST" => some do_TEST
  | "do_COMPARE" => some do_COMPARE
  | "do_LT" => some do_LT
  | "do_GT" => some do_GT
  | "do_INVERT_COND" => some do_INVERT_COND
  | "do_JUMP" => some do_JUMP
  | "do_JUMP_IF" => some do_JUMP_IF
  | "do_CALL" => some do_CALL
  | "do_CALL_IF" => some do_CALL_IF
  | "do_RETURN" => some do_RETURN
  | "do_RAND" => some do_RAND
  | "do_RANDINT" => some do_RANDINT
  | _ => none

/-- Outcome of one iteration of the `run` loop. -/
inductive StepOut where
  | halt
  | cont (s : Interp)
deriving DecidableEq, Repr

/-- One iteration of `Interpreter.run`: fetch the opcode cell (defaulting to
"HALT"), stop normally when it equals the string "HALT" or is not a str,
look the handler up (`getattr` with no default raises `AttributeError`, so
the source's subsequent `if not method: raise InvalidOpcode(...)` is dead
code — a bound method is always truthy), execute it, and auto-advance one
row unless the handler returned a truthy value. -/
def stepI (s : Interp) : Except Err StepOut :=
  let opcode := s.sheet.read s.ip (.Text "HALT")
  if pyEq opcode (.Text "HALT") || ¬ opcode.isText then pure .halt
  else
    match opcode with
    | .Text t =>
      match getHandler ("do_" ++ t.toUpper) with
      | none => throw (.AttributeError ("do_" ++ t.toUpper))
      | some method => do
        let (s2, b) ← method s
        if b then pure (.cont s2)
        else pure (.cont { s2 with ip := (s2.ip.1, s2.ip.2 + 1) })
    | _ => pure .halt

/-- Result of running the interpreter with bounded fuel. -/
inductive RunResult where
  | halted (s : Interp)
  | err (e : Err)
  | out_of_fuel (s : Interp)
deriving DecidableEq, Repr

/-- `Interpreter.run`, with fuel bounding the number of loop iterations. -/
def run : Nat → Interp → RunResult
  | 0, s => .out_of_fuel s
  | fuel + 1, s =>
    match stepI s with
    | .error e => .err e
    | .ok .halt => .halted s
    | .ok (.cont s2) => run fuel s2

deriving instance DecidableEq for Except

/-!  Concrete programs and states used to exercise the interpreter. -/

/-- The empty sheet. -/
def sheet0 : Sheet := ⟨[]⟩

/-- A sheet whose entry cell explicitly stores the empty string. -/
def sheetEmptyOpcode : Sheet := Sheet.write sheet0 (1, 1) (.Text "")

/-- A sheet whose entry cell stores the lowercase text "halt". -/
def sheetLowerHalt : Sheet := Sheet.write sheet0 (1, 1) (.Text "halt")

/-- A sheet whose entry cell holds the raw float 0.0 (as after constructing
`Sheet(values={(1,1): 0.0})` directly). -/
def sheetRawZero : Sheet := ⟨[((1, 1), .Number 0)]⟩

/-- A sheet whose entry cell stores an unrecognized opcode name. -/
def sheetBogus : Sheet := Sheet.write sheet0 (1, 1) (.Text "BOGUS")

/-- `A1=CALL  B1=A5  C1=1  A5=RETURN`: a call with argument count 1 to a
subroutine that returns immediately. -/
def callSheet : Sheet :=
  (((Sheet.write sheet0 (1, 1) (.Text "CALL")).write (2, 1) (.Text "A5")).write
      (3, 1) (.Number 1)).write (1, 5) (.Text "RETURN")

/-- The call scenario started with operand stack `[10.0]`. -/
def callState : Interp := { mkInterp callSheet with stack := ⟨[.Number 10], []⟩ }

/-- `A1=RANDINT  B1=2  A2=ADD`: a random int followed by an addition. -/
def randintSheet : Sheet :=
  ((Sheet.write sheet0 (1, 1) (.Text "RANDINT")).write (2, 1) (.Number 2)).write
    (1, 2) (.Text "ADD")

/-- The RANDINT scenario with stack `[1.0]` and the oracle choosing 2. -/
def randintState : Interp :=
  { mkInterp randintSheet with stack := ⟨[.Number 1], []⟩, randz := [2] }

/-- `B1=B5  B5=3` with the instruction pointer at A1: argument 1 of the
instruction resolves to the address B5 holding the float 3.0. -/
def ltSheet : Sheet := (Sheet.write sheet0 (2, 1) (.Text "B5")).write (2, 5) (.Number 3)

/-- The comparison scenario whose only stack value is the text "x". -/
def ltState : Interp := { mkInterp ltSheet with stack := ⟨[.Text "x"], []⟩ }

/-- A state whose stack holds `[1.0, 0.0]` (a zero divisor on top). -/
def divZeroState : Interp := { mkInterp sheet0 with stack := ⟨[.Number 1, .Number 0], []⟩ }

/-- A stack with one value above the boundary of a single active frame. -/
def singleFrameStack : Stack := ⟨[.Number 10], [0]⟩

/-- A sheet whose entry cell holds the raw float 5.0. -/
def sheetRawFive : Sheet := ⟨[((1, 1), .Number 5)]⟩

/-- A sheet whose entry cell stores the text HALT. -/
def sheetHalt : Sheet := Sheet.write sheet0 (1, 1) (.Text "HALT")

/-- A state whose stack holds the floats `[2.0, 3.0]`. -/
def arithState : Interp := { mkInterp sheet0 with stack := ⟨[.Number 2, .Number 3], []⟩ }

/-- The comparison sheet of `ltSheet` with the float 3.0 on the stack. -/
def cmpState : Interp := { mkInterp ltSheet with stack := ⟨[.Number 3], []⟩ }

/-- A state whose stack holds a float below a Python int. -/
def intAddState : Interp := { mkInterp sheet0 with stack := ⟨[.Number 1, .IntVal 2], []⟩ }

/-- The state reached after executing the CALL of `callState`. -/
def afterCallState : Interp :=
  { callState with stack := ⟨[.Number 10], [0]⟩, ret_stack := [(1, 1)], ip := (1, 5) }

/-!  Digit strings: evaluation and printing lemmas. -/

theorem takeWhile_of_all {p : Char → Bool} (l : List Char) (h : ∀ c ∈ l, p c = true) :
    l.takeWhile p = l := by
  induction l with
  | nil => rfl
  | cons a t ih =>
    simp only [List.takeWhile_cons, h a (List.mem_cons_self a t), if_true]
    rw [ih fun c hc => h c (List.mem_cons_of_mem a hc)]

theorem dropWhile_of_all {p : Char → Bool} (l : List Char) (h : ∀ c ∈ l, p c = true) :
    l.dropWhile p = [] := by
  induction l with
  | nil => rfl
  | cons a t ih =>
    simp only [List.dropWhile_cons, h a (List.mem_cons_self a t), if_true]
    exact ih fun c hc => h c (List.mem_cons_of_mem a hc)

theorem takeWhile_append_stop {p : Char → Bool} (l : List Char) (c : Char) (r : List Char)
    (hl : ∀ x ∈ l, p x = true) (hc : p c = false) :
    (l ++ c :: r).takeWhile p = l ∧ (l ++ c :: r).dropWhile p = c :: r := by
  induction l with
  | nil => simp [List.takeWhile_cons, List.dropWhile_cons, hc]
  | cons a t ih =>
    have ha := hl a (List.mem_cons_self a t)
    have ht := ih fun x hx => hl x (List.mem_cons_of_mem a hx)
    simp only [List.cons_append, List.takeWhile_cons, List.dropWhile_cons, ha, if_true]
    exact ⟨by rw [ht.1], ht.2⟩

theorem digitsVal_foldl (l : List Char) (a : Nat) :
    l.foldl (fun a c => a * 10 + digitVal c) a = a * 10 ^ l.length + digitsVal l := by
  induction l generalizing a with
  | nil => simp [digitsVal]
  | cons c t ih =>
    have h1 : digitsVal (c :: t) = digitVal c * 10 ^ t.length + digitsVal t := by
      show List.foldl _ 0 (c :: t) = _
      simp only [List.foldl_cons]
      rw [ih]
      ring
    simp only [List.foldl_cons]
    rw [ih, h1, List.length_cons]
    ring

theorem digitsVal_append (l1 l2 : List Char) :
    digitsVal (l1 ++ l2) = digitsVal l1 * 10 ^ l2.length + digitsVal l2 := by
  unfold digitsVal
  rw [List.foldl_append]
  exact digitsVal_foldl l2 _

theorem digitsVal_single (c : Char) : digitsVal [c] = digitVal c := by
  simp [digitsVal]

theorem digitsVal_replicate_zero (k : Nat) : digitsVal (List.replicate k '0') = 0 := by
  induction k with
  | zero => rfl
  | succ k ih =>
    rw [List.replicate_succ]
    unfold digitsVal at ih ⊢
    simpa [digitVal] using ih

theorem digitChar_spec (d : Nat) (hd : d < 10) :
    isDigitChar (Char.ofNat (48 + d)) = true ∧ digitVal (Char.ofNat (48 + d)) = d := by
  interval_cases d <;> exact ⟨by decide, by decide⟩

theorem natDigitsAux_zero (f : Nat) : natDigitsAux f 0 = [] := by
  cases f <;> simp [natDigitsAux]

theorem natDigitsAux_congr (n : Nat) : ∀ f1 f2, n ≤ f1 → n ≤ f2 →
    natDigitsAux f1 n = natDigitsAux f2 n := by
  induction n using Nat.strong_induction_on with
  | _ n ih =>
    intro f1 f2 h1 h2
    rcases Nat.eq_zero_or_pos n with hn | hn
    · subst hn; rw [natDigitsAux_zero, natDigitsAux_zero]
    · obtain ⟨fa, rfl⟩ : ∃ fa, f1 = fa + 1 := ⟨f1 - 1, by omega⟩
      obtain ⟨fb, rfl⟩ : ∃ fb, f2 = fb + 1 := ⟨f2 - 1, by omega⟩
      have hdiv : n / 10 < n := Nat.div_lt_self hn (by norm_num)
      simp only [natDigitsAux, if_neg (Nat.pos_iff_ne_zero.mp hn)]
      rw [ih (n / 10) hdiv fa fb (by omega) (by omega)]

theorem natDigits_succ (n : Nat) (hn : n ≠ 0) :
    natDigits n = natDigits (n / 10) ++ [Char.ofNat (48 + n % 10)] := by
  obtain ⟨f, rfl⟩ : ∃ f, n = f + 1 := ⟨n - 1, by omega⟩
  have hdiv : (f + 1) / 10 < f + 1 := Nat.div_lt_self (by omega) (by norm_num)
  show natDigitsAux (f + 1) (f + 1) = _
  simp only [natDigitsAux, if_neg hn]
  unfold natDigits
  rw [natDigitsAux_congr ((f + 1) / 10) f ((f + 1) / 10) (by omega) (le_refl _)]

theorem natDigits_spec (n : Nat) :
    digitsVal (natDigits n) = n ∧ ∀ c ∈ natDigits n, isDigitChar c = true := by
  induction n using Nat.strong_induction_on with
  | _ n ih =>
    rcases Nat.eq_zero_or_pos n with hn | hn
    · subst hn
      refine ⟨rfl, ?_⟩
      intro c hc
      simp [natDigits, natDigitsAux] at hc
    · have hne : n ≠ 0 := Nat.pos_iff_ne_zero.mp hn
      have hdiv : n / 10 < n := Nat.div_lt_self hn (by norm_num)
      have hmod : n % 10 < 10 := Nat.mod_lt n (by norm_num)
      obtain ⟨hv, hd⟩ := ih (n / 10) hdiv
      obtain ⟨hdc, hdv⟩ := digitChar_spec (n % 10) hmod
      rw [natDigits_succ n hne]
      constructor
      · rw [digitsVal_append, hv, digitsVal_single, hdv]
        simp only [List.length_singleton, pow_one]
        omega
      · intro c hc
        rcases List.mem_append.mp hc with h | h
        · exact hd c h
        · rcases List.mem_singleton.mp h with rfl
          exact hdc

theorem natDigits_length (L : Nat) : ∀ n, n < 10 ^ L → (natDigits n).length ≤ L := by
  induction L with
  | zero =>
    intro n hn
    have : n = 0 := by simpa using hn
    subst this
    simp [natDigits, natDigitsAux]
  | succ L ih =>
    intro n hn
    rcases Nat.eq_zero_or_pos n with hz | hp
    · subst hz; simp [natDigits, natDigitsAux]
    · rw [natDigits_succ n (Nat.pos_iff_ne_zero.mp hp), List.length_append]
      have : n / 10 < 10 ^ L := by
        rw [Nat.div_lt_iff_lt_mul (by norm_num : (0:ℕ) < 10)]
        calc n < 10 ^ (L + 1) := hn
        _ = 10 ^ L * 10 := by ring
      have := ih (n / 10) this
      simp only [List.length_singleton]
      omega

theorem natChars_spec (n : Nat) :
    digitsVal (natChars n) = n ∧ (∀ c ∈ natChars n, isDigitChar c = true) ∧ natChars n ≠ [] := by
  unfold natChars
  rcases eq_or_ne n 0 with rfl | hn
  · simp only [if_pos rfl]
    exact ⟨by decide, by decide, by decide⟩
  · obtain ⟨hv, hd⟩ := natDigits_spec n
    rw [if_neg hn]
    refine ⟨hv, hd, ?_⟩
    rw [natDigits_succ n hn]
    simp


theorem digit_not_special (c : Char) (hc : isDigitChar c = true) :
    c ≠ '-' ∧ c ≠ '+' ∧ c ≠ '.' ∧ c ≠ 'e' ∧ c ≠ 'E' := by
  refine ⟨?_, ?_, ?_, ?_, ?_⟩ <;> rintro rfl <;> simp [isDigitChar] at hc

theorem stripSign_digits (I r : List Char) (hI : I ≠ []) (hId : ∀ c ∈ I, isDigitChar c = true) :
    stripSign (I ++ r) = (false, I ++ r) := by
  obtain ⟨c, t, rfl⟩ : ∃ c t, I = c :: t := by
    cases I with
    | nil => exact absurd rfl hI
    | cons c t => exact ⟨c, t, rfl⟩
  have hc := digit_not_special c (hId c (List.mem_cons_self c t))
  simp [stripSign, hc.1, hc.2.1]

theorem pyFloatCore_decimal (neg : Bool) (I F : List Char) (hI : I ≠ [])
    (hId : ∀ c ∈ I, isDigitChar c = true) (hFd : ∀ c ∈ F, isDigitChar c = true) :
    pyFloatCore ((if neg then ['-'] else []) ++ I ++ '.' :: F) =
      some ((if neg then (-1 : ℚ) else 1) *
        ((digitsVal I : ℚ) + (digitsVal F : ℚ) / 10 ^ F.length)) := by
  have hdot : isDigitChar '.' = false := by decide
  have hsplit := takeWhile_append_stop (p := isDigitChar) I '.' F hId hdot
  have hF1 : F.takeWhile isDigitChar = F := takeWhile_of_all F hFd
  have hF2 : F.dropWhile isDigitChar = [] := dropWhile_of_all F hFd
  have hstrip : stripSign ((if neg then ['-'] else []) ++ I ++ '.' :: F) =
      (neg, I ++ '.' :: F) := by
    cases neg with
    | false =>
      simp only [Bool.false_eq_true, if_false, List.nil_append]
      exact stripSign_digits I ('.' :: F) hI hId
    | true => simp [stripSign]
  unfold pyFloatCore
  rw [hstrip]
  simp only [hsplit.1, hsplit.2, List.head?_cons, List.tail_cons, hF1, hF2, if_true]
  rw [if_neg (by simp [hI])]
  unfold parseExpPart
  rw [if_pos rfl]

theorem multP_spec (p : Nat) (hp : 2 ≤ p) :
    ∀ n f, n ≤ f → n ≠ 0 → p ^ multP p f n ∣ n ∧ ¬ (p ∣ n / p ^ multP p f n) := by
  intro n
  induction n using Nat.strong_induction_on with
  | _ n ih =>
    intro f hf hn
    obtain ⟨f', rfl⟩ : ∃ f', f = f' + 1 := ⟨f - 1, by omega⟩
    by_cases hdvd : p ∣ n
    · have hppos : 0 < p := by omega
      have hmod : n % p = 0 := Nat.dvd_iff_mod_eq_zero.mp hdvd
      have hq0 : n / p ≠ 0 := by
        have := Nat.div_pos (Nat.le_of_dvd (by omega) hdvd) hppos
        omega
      have hlt : n / p < n := Nat.div_lt_self (by omega) (by omega)
      obtain ⟨h1, h2⟩ := ih (n / p) hlt f' (by omega) hq0
      have hstep : multP p (f' + 1) n = 1 + multP p f' (n / p) := by
        show (if 2 ≤ p ∧ n ≠ 0 ∧ n % p = 0 then 1 + multP p f' (n / p) else 0) = _
        rw [if_pos ⟨hp, hn, hmod⟩]
      rw [hstep, pow_add, pow_one]
      constructor
      · calc p * p ^ multP p f' (n / p) ∣ p * (n / p) := Nat.mul_dvd_mul_left p h1
          _ = n := Nat.mul_div_cancel' hdvd
      · rw [← Nat.div_div_eq_div_mul]
        exact h2
    · have hstep : multP p (f' + 1) n = 0 := by
        show (if 2 ≤ p ∧ n ≠ 0 ∧ n % p = 0 then 1 + multP p f' (n / p) else 0) = 0
        rw [if_neg]
        intro hc
        exact hdvd (Nat.dvd_of_mod_eq_zero hc.2.2)
      rw [hstep, pow_zero]
      exact ⟨one_dvd n, by simpa using hdvd⟩

theorem dvd_ten_pow_eq_one (j : Nat) : ∀ d, ¬ 2 ∣ d → ¬ 5 ∣ d → d ∣ 10 ^ j → d = 1 := by
  induction j with
  | zero =>
    intro d _ _ h
    simpa using Nat.dvd_one.mp (by simpa using h)
  | succ j ih =>
    intro d h2 h5 hdvd
    have hc2 : Nat.Coprime 2 d := (Nat.Prime.coprime_iff_not_dvd Nat.prime_two).mpr h2
    have hc5 : Nat.Coprime 5 d :=
      (Nat.Prime.coprime_iff_not_dvd (by norm_num : Nat.Prime 5)).mpr h5
    have hc10 : Nat.Coprime d 10 := by
      have h := Nat.Coprime.mul_right hc2.symm hc5.symm
      simpa using h
    have hstep : d ∣ 10 ^ j := by
      have hpow : (10 : ℕ) ^ (j + 1) = 10 * 10 ^ j := by ring
      rw [hpow] at hdvd
      exact Nat.Coprime.dvd_of_dvd_mul_left hc10 hdvd
    exact ih d h2 h5 hstep

theorem smooth_of_dvd_ten_pow (d j : Nat) (hd : d ≠ 0) (hdvd : d ∣ 10 ^ j) :
    ∃ a b, d = 2 ^ a * 5 ^ b ∧ a ≤ d ∧ b ≤ d := by
  obtain ⟨h2a, h2b⟩ := multP_spec 2 (le_refl 2) d d (le_refl d) hd
  generalize ha : multP 2 d d = a at h2a h2b
  have hsplit2 : 2 ^ a * (d / 2 ^ a) = d := Nat.mul_div_cancel' h2a
  generalize hd1e : d / 2 ^ a = d1 at h2b hsplit2
  have hd1ne : d1 ≠ 0 := by
    intro h0
    rw [h0, mul_zero] at hsplit2
    exact hd hsplit2.symm
  have hd1dvdd : d1 ∣ d := ⟨2 ^ a, by rw [← hsplit2]; ring⟩
  have hd1dvd : d1 ∣ 10 ^ j := hd1dvdd.trans hdvd
  obtain ⟨h5a, h5b⟩ := multP_spec 5 (by norm_num) d1 d1 (le_refl d1) hd1ne
  generalize hb : multP 5 d1 d1 = b at h5a h5b
  have hsplit5 : 5 ^ b * (d1 / 5 ^ b) = d1 := Nat.mul_div_cancel' h5a
  generalize hd2e : d1 / 5 ^ b = d2 at h5b hsplit5
  have hd2dvdd1 : d2 ∣ d1 := ⟨5 ^ b, by rw [← hsplit5]; ring⟩
  have hd2not2 : ¬ 2 ∣ d2 := fun hc => h2b (hc.trans hd2dvdd1)
  have hd2one : d2 = 1 := dvd_ten_pow_eq_one j d2 hd2not2 h5b (hd2dvdd1.trans hd1dvd)
  refine ⟨a, b, ?_, ?_, ?_⟩
  · rw [← hsplit2, ← hsplit5, hd2one, mul_one]
  · have h2le : 2 ^ a ≤ d := Nat.le_of_dvd (Nat.pos_of_ne_zero hd) h2a
    have := Nat.lt_two_pow a
    omega
  · have h5dvdd1 : (5 : ℕ) ^ b ∣ d1 := ⟨d2, hsplit5.symm⟩
    have h5le : 5 ^ b ≤ d := Nat.le_of_dvd (Nat.pos_of_ne_zero hd) (h5dvdd1.trans hd1dvdd)
    have : b < 5 ^ b := Nat.lt_pow_self (by norm_num) b
    omega

theorem decExp_finds (d : Nat) (hd : d ≠ 0) (h : ∃ j, d ∣ 10 ^ j) :
    ∃ k, decExp d = some k ∧ d ∣ 10 ^ k := by
  obtain ⟨j, hj⟩ := h
  obtain ⟨a, b, hab, haa, hbb⟩ := smooth_of_dvd_ten_pow d j hd hj
  have hk0 : d ∣ 10 ^ max a b := by
    have h2 : (2 : ℕ) ^ a ∣ 2 ^ max a b := pow_dvd_pow 2 (le_max_left a b)
    have h5 : (5 : ℕ) ^ b ∣ 5 ^ max a b := pow_dvd_pow 5 (le_max_right a b)
    have h10 : (10 : ℕ) ^ max a b = 2 ^ max a b * 5 ^ max a b := by
      rw [← mul_pow]
      norm_num
    rw [hab, h10]
    exact mul_dvd_mul h2 h5
  cases hfind : decExp d with
  | some k =>
    refine ⟨k, rfl, ?_⟩
    have hpr := List.find?_some hfind
    exact Nat.dvd_of_mod_eq_zero (by simpa using hpr)
  | none =>
    exfalso
    have hall := List.find?_eq_none.mp hfind (max a b) (by
      refine List.mem_range.mpr ?_
      omega)
    have hmz : 10 ^ max a b % d = 0 := Nat.dvd_iff_mod_eq_zero.mp hk0
    simp [hmz] at hall

theorem sign_natAbs_div_den (q : ℚ) :
    (if q < 0 then (-1 : ℚ) else 1) * (q.num.natAbs : ℚ) / (q.den : ℚ) = q := by
  have habs : ((q.num.natAbs : ℚ)) = |(q.num : ℚ)| := by
    rw [Int.cast_natAbs, Int.cast_abs]
  rw [habs]
  by_cases hq : q < 0
  · rw [if_pos hq]
    have hnum : (q.num : ℚ) < 0 := by
      have := Rat.num_neg.mpr hq
      exact_mod_cast this
    rw [abs_of_neg hnum]
    rw [show (-1 : ℚ) * - (q.num : ℚ) = (q.num : ℚ) by ring]
    exact Rat.num_div_den q
  · rw [if_neg hq]
    have hnum : (0 : ℚ) ≤ (q.num : ℚ) := by
      have : 0 ≤ q.num := by
        by_contra hc
        exact hq (Rat.num_neg.mp (by omega))
      exact_mod_cast this
    rw [abs_of_nonneg hnum, one_mul]
    exact Rat.num_div_den q

theorem pyFloatCore_decimal_prop (c : Prop) [Decidable c] (I F : List Char) (hI : I ≠ [])
    (hId : ∀ x ∈ I, isDigitChar x = true) (hFd : ∀ x ∈ F, isDigitChar x = true) :
    pyFloatCore ((if c then ['-'] else []) ++ I ++ '.' :: F) =
      some ((if c then (-1 : ℚ) else 1) *
        ((digitsVal I : ℚ) + (digitsVal F : ℚ) / 10 ^ F.length)) := by
  by_cases hc : c
  · rw [if_pos hc, if_pos hc]
    have := pyFloatCore_decimal true I F hI hId hFd
    simpa using this
  · rw [if_neg hc, if_neg hc]
    have := pyFloatCore_decimal false I F hI hId hFd
    simpa using this

theorem floatChars_parse (q : ℚ) (h : ∃ j, (q.den : ℕ) ∣ 10 ^ j) :
    pyFloatCore (floatChars q) = some q := by
  have hden : q.den ≠ 0 := q.den_nz
  have hdenQ : ((q.den : ℕ) : ℚ) ≠ 0 := by positivity
  obtain ⟨k, hk, hkdvd⟩ := decExp_finds q.den hden h
  obtain ⟨hIv, hId, hIne⟩ := natChars_spec q.num.natAbs
  by_cases hk0 : k = 0
  · subst hk0
    have hden1 : q.den = 1 := Nat.dvd_one.mp (by simpa using hkdvd)
    have hchars : floatChars q =
        (if q < 0 then ['-'] else []) ++ natChars q.num.natAbs ++ '.' :: ['0'] := by
      simp only [floatChars, hk]
      rfl
    rw [hchars, pyFloatCore_decimal_prop (q < 0) _ _ hIne hId (by decide)]
    rw [hIv]
    have hv : (digitsVal ['0'] : ℚ) = 0 := by decide
    rw [hv]
    have hq := sign_natAbs_div_den q
    rw [hden1] at hq
    simp only [Nat.cast_one, div_one] at hq
    congr 1
    rw [zero_div, add_zero]
    exact hq
  · have hmdvd : q.den ∣ q.num.natAbs * 10 ^ k := Dvd.dvd.mul_left hkdvd q.num.natAbs
    obtain ⟨hJv, hJd, hJne⟩ := natChars_spec (q.num.natAbs * 10 ^ k / q.den / 10 ^ k)
    have hmod_lt : q.num.natAbs * 10 ^ k / q.den % 10 ^ k < 10 ^ k :=
      Nat.mod_lt _ (by positivity)
    have hlen : (natDigits (q.num.natAbs * 10 ^ k / q.den % 10 ^ k)).length ≤ k :=
      natDigits_length k _ hmod_lt
    have hchars : floatChars q =
        (if q < 0 then ['-'] else []) ++ natChars (q.num.natAbs * 10 ^ k / q.den / 10 ^ k) ++
          '.' :: padZeros k (natDigits (q.num.natAbs * 10 ^ k / q.den % 10 ^ k)) := by
      simp only [floatChars, hk]
      rw [if_neg hk0]
    have hFd : ∀ x ∈ padZeros k (natDigits (q.num.natAbs * 10 ^ k / q.den % 10 ^ k)),
        isDigitChar x = true := by
      intro x hx
      rcases List.mem_append.mp hx with hx | hx
      · rcases List.eq_of_mem_replicate hx with rfl
        decide
      · exact (natDigits_spec _).2 x hx
    rw [hchars, pyFloatCore_decimal_prop (q < 0) _ _ hJne hJd hFd]
    have hFlen : (padZeros k (natDigits (q.num.natAbs * 10 ^ k / q.den % 10 ^ k))).length = k := by
      unfold padZeros
      rw [List.length_append, List.length_replicate]
      omega
    have hFval : digitsVal (padZeros k (natDigits (q.num.natAbs * 10 ^ k / q.den % 10 ^ k))) =
        q.num.natAbs * 10 ^ k / q.den % 10 ^ k := by
      unfold padZeros
      rw [digitsVal_append, digitsVal_replicate_zero, (natDigits_spec _).1]
      ring
    rw [hJv, hFlen, hFval]
    -- numeric finish
    have hm : ((q.num.natAbs * 10 ^ k / q.den : ℕ) : ℚ) =
        (q.num.natAbs : ℚ) * 10 ^ k / (q.den : ℚ) := by
      push_cast [Nat.cast_div hmdvd hdenQ]
      ring
    have hsum : ((q.num.natAbs * 10 ^ k / q.den / 10 ^ k : ℕ) : ℚ) +
        ((q.num.natAbs * 10 ^ k / q.den % 10 ^ k : ℕ) : ℚ) / (10 : ℚ) ^ k =
        ((q.num.natAbs * 10 ^ k / q.den : ℕ) : ℚ) / (10 : ℚ) ^ k := by
      generalize q.num.natAbs * 10 ^ k / q.den = C
      have hdm : C / 10 ^ k * 10 ^ k + C % 10 ^ k = C := Nat.div_add_mod' C (10 ^ k)
      have hten : ((10 : ℚ) ^ k) ≠ 0 := by positivity
      rw [eq_div_iff hten, add_mul, div_mul_cancel₀ _ hten]
      exact_mod_cast hdm
    rw [hsum, hm]
    have hfin : (q.num.natAbs : ℚ) * 10 ^ k / (q.den : ℚ) / (10 : ℚ) ^ k =
        (q.num.natAbs : ℚ) / (q.den : ℚ) := by
      have hten : ((10 : ℚ) ^ k) ≠ 0 := by positivity
      field_simp
      ring
    rw [hfin]
    have hq := sign_natAbs_div_den q
    congr 1
    rw [← mul_div_assoc]
    exact hq

theorem pyFloat_floatStr (q : ℚ) (h : ∃ j, (q.den : ℕ) ∣ 10 ^ j) :
    _safe_float (floatStr q) = some q := by
  unfold _safe_float floatStr
  show pyFloatCore (String.mk (floatChars q)).data = some q
  exact floatChars_parse q h

theorem den_dvd_pow_of_div_pow (x : ℚ) (i : ℤ) (j : ℕ) (hx : x = (i : ℚ) / 10 ^ j) :
    (x.den : ℕ) ∣ 10 ^ j := by
  have hdi : x = Rat.divInt i ((10 : ℤ) ^ j) := by
    rw [Rat.divInt_eq_div, hx]
    push_cast
    ring
  have := Rat.den_dvd i ((10 : ℤ) ^ j)
  rw [← hdi] at this
  have h10 : ((10 : ℤ) ^ j) = ((10 ^ j : ℕ) : ℤ) := by push_cast; ring
  rw [h10] at this
  exact_mod_cast this

theorem mantissa_form (neg : Bool) (A B t : ℕ) :
    ∃ i : ℤ, ∃ j : ℕ,
      (if neg then (-1 : ℚ) else 1) * ((A : ℚ) + (B : ℚ) / 10 ^ t) = (i : ℚ) / 10 ^ j := by
  refine ⟨(if neg then -1 else 1) * ((A : ℤ) * 10 ^ t + B), t, ?_⟩
  have hten : ((10 : ℚ) ^ t) ≠ 0 := by positivity
  cases neg <;> push_cast <;> field_simp <;> ring

theorem mantissa_form_int (neg : Bool) (A : ℕ) :
    ∃ i : ℤ, ∃ j : ℕ, (if neg then (-1 : ℚ) else 1) * (A : ℚ) = (i : ℚ) / 10 ^ j := by
  refine ⟨(if neg then -1 else 1) * (A : ℤ), 0, ?_⟩
  cases neg <;> push_cast <;> ring

theorem parseExpPart_form (cs : List Char) (base q : ℚ)
    (hbase : ∃ i : ℤ, ∃ j : ℕ, base = (i : ℚ) / 10 ^ j)
    (h : parseExpPart cs base = some q) : ∃ i : ℤ, ∃ j : ℕ, q = (i : ℚ) / 10 ^ j := by
  obtain ⟨i, j, rfl⟩ := hbase
  simp only [parseExpPart] at h
  split at h
  · obtain rfl := Option.some.inj h
    exact ⟨i, j, rfl⟩
  · split at h
    · split at h
      · exact absurd h (by simp)
      · obtain rfl := Option.some.inj h
        split
        · refine ⟨i, j + digitsVal (List.takeWhile isDigitChar (stripSign cs.tail).2), ?_⟩
          rw [div_div, ← pow_add]
        · refine ⟨i * 10 ^ digitsVal (List.takeWhile isDigitChar (stripSign cs.tail).2), j, ?_⟩
          push_cast
          rw [div_mul_eq_mul_div]
    · exact absurd h (by simp)

theorem pyFloatCore_form (cs : List Char) (q : ℚ) (h : pyFloatCore cs = some q) :
    ∃ i : ℤ, ∃ j : ℕ, q = (i : ℚ) / 10 ^ j := by
  simp only [pyFloatCore] at h
  split at h
  · split at h
    · exact absurd h (by simp)
    · exact parseExpPart_form _ _ q (mantissa_form _ _ _ _) h
  · split at h
    · exact absurd h (by simp)
    · exact parseExpPart_form _ _ q (mantissa_form_int _ _) h

theorem safe_float_den (s : String) (q : ℚ) (h : _safe_float s = some q) :
    ∃ j, (q.den : ℕ) ∣ 10 ^ j := by
  obtain ⟨i, j, hij⟩ := pyFloatCore_form s.toList q h
  exact ⟨j, den_dvd_pow_of_div_pow q i j hij⟩

theorem interpret_value_Number (q : ℚ) (hq : q ≠ 0) (h : ∃ j, (q.den : ℕ) ∣ 10 ^ j) :
    Sheet.interpret_value (.Number q) = .Number q := by
  unfold Sheet.interpret_value
  show (match _safe_float (pyStr (.Number q)) with
    | some n => if n = 0 then Value.Text (pyStr (.Number q)) else Value.Number n
    | none => Value.Text (pyStr (.Number q))) = Value.Number q
  have hp : _safe_float (pyStr (.Number q)) = some q := pyFloat_floatStr q h
  rw [hp]
  show (if q = 0 then Value.Text (pyStr (.Number q)) else Value.Number q) = Value.Number q
  rw [if_neg hq]

theorem interpret_value_Text (s : String) :
    Sheet.interpret_value (.Text s) =
      (match _safe_float s with
       | some n => if n = 0 then .Text s else .Number n
       | none => .Text s) := rfl

theorem getCell_setCell (sh : Sheet) (k : Nat × Nat) (v : Value) :
    (sh.setCell k v).getCell k = some v := by
  unfold Sheet.getCell Sheet.setCell
  simp [List.find?]

theorem read_write (sh : Sheet) (k : Nat × Nat) (v d : Value) :
    (sh.write k v).read k d = Sheet.interpret_value (Sheet.interpret_value v) := by
  unfold Sheet.read Sheet.write
  rw [getCell_setCell]
  rfl

theorem read_write_numeric (sh : Sheet) (k : Nat × Nat) (d : Value) (s : String) (n : ℚ)
    (hp : _safe_float s = some n) (hn : n ≠ 0) :
    (sh.write k (.Text s)).read k d = .Number n := by
  rw [read_write]
  have h1 : Sheet.interpret_value (.Text s) = .Number n := by
    rw [interpret_value_Text, hp]
    exact if_neg hn
  rw [h1]
  exact interpret_value_Number n hn (safe_float_den s n hp)

theorem read_write_text (sh : Sheet) (k : Nat × Nat) (d : Value) (s : String)
    (hp : _safe_float s = none) :
    (sh.write k (.Text s)).read k d = .Text s := by
  rw [read_write]
  have h1 : Sheet.interpret_value (.Text s) = .Text s := by
    rw [interpret_value_Text, hp]
  rw [h1, h1]

/-!  The letter codec: `_numbers_to_letters` inverts into
`_letters_to_numbers`. -/

theorem l2n_foldl (l : List Char) (a : Nat) :
    l.foldl (fun n c => n * 26 + (ALPHABET.indexOf c.toUpper + 1)) a =
      a * 26 ^ l.length + _letters_to_numbers l := by
  induction l generalizing a with
  | nil => simp [_letters_to_numbers]
  | cons c t ih =>
    have h1 : _letters_to_numbers (c :: t) =
        (ALPHABET.indexOf c.toUpper + 1) * 26 ^ t.length + _letters_to_numbers t := by
      show List.foldl _ 0 (c :: t) = _
      simp only [List.foldl_cons]
      rw [ih]
      ring
    simp only [List.foldl_cons]
    rw [ih, h1, List.length_cons]
    ring

theorem l2n_append_char (l : List Char) (c : Char) :
    _letters_to_numbers (l ++ [c]) =
      _letters_to_numbers l * 26 + (ALPHABET.indexOf c.toUpper + 1) := by
  unfold _letters_to_numbers
  rw [List.foldl_append]
  simp only [List.foldl_cons, List.foldl_nil]

theorem l2n_single (c : Char) : _letters_to_numbers [c] = ALPHABET.indexOf c.toUpper + 1 := by
  simp [_letters_to_numbers]

theorem l2n_pos (l : List Char) (hl : l ≠ []) : 1 ≤ _letters_to_numbers l := by
  obtain ⟨c, t, rfl⟩ : ∃ c t, l = c :: t := by
    cases l with
    | nil => exact absurd rfl hl
    | cons c t => exact ⟨c, t, rfl⟩
  have step : ∀ (t : List Char) (a : Nat), 1 ≤ a →
      1 ≤ t.foldl (fun n c => n * 26 + (ALPHABET.indexOf c.toUpper + 1)) a := by
    intro t
    induction t with
    | nil => intro a ha; simpa using ha
    | cons x xs ih =>
      intro a ha
      simp only [List.foldl_cons]
      exact ih _ (by omega)
  show 1 ≤ List.foldl _ 0 (c :: t)
  simp only [List.foldl_cons]
  exact step t _ (by omega)

theorem alpha_char_val (r : Nat) (h1 : 1 ≤ r) (h2 : r ≤ 26) :
    ALPHABET.indexOf (ALPHABET.getD (r - 1) 'A').toUpper + 1 = r ∧
    isA1Letter (ALPHABET.getD (r - 1) 'A') = true := by
  interval_cases r <;> exact ⟨by decide, by decide⟩

theorem n2l_inverse : ∀ n, 1 ≤ n → ∀ f, n ≤ f →
    _letters_to_numbers (_numbers_to_lettersAux f n) = n ∧
    (∀ c ∈ _numbers_to_lettersAux f n, isA1Letter c = true) ∧
    _numbers_to_lettersAux f n ≠ [] := by
  intro n
  induction n using Nat.strong_induction_on with
  | _ n ih =>
    intro hn f hf
    obtain ⟨f', rfl⟩ : ∃ f', f = f' + 1 := ⟨f - 1, by omega⟩
    have hstep : _numbers_to_lettersAux (f' + 1) n =
        (if (if n % 26 = 0 then n / 26 - 1 else n / 26) = 0 then
          [ALPHABET.getD ((if n % 26 = 0 then 26 else n % 26) - 1) 'A']
        else if (if n % 26 = 0 then n / 26 - 1 else n / 26) ≤ 26 then
          [ALPHABET.getD ((if n % 26 = 0 then n / 26 - 1 else n / 26) - 1) 'A',
           ALPHABET.getD ((if n % 26 = 0 then 26 else n % 26) - 1) 'A']
        else _numbers_to_lettersAux f' (if n % 26 = 0 then n / 26 - 1 else n / 26) ++
          [ALPHABET.getD ((if n % 26 = 0 then 26 else n % 26) - 1) 'A']) := rfl
    set q := if n % 26 = 0 then n / 26 - 1 else n / 26 with hq
    set r := if n % 26 = 0 then 26 else n % 26 with hr
    have hqr : n = 26 * q + r ∧ 1 ≤ r ∧ r ≤ 26 := by
      by_cases h0 : n % 26 = 0
      · rw [hq, hr, if_pos h0, if_pos h0]
        omega
      · rw [hq, hr, if_neg h0, if_neg h0]
        omega
    obtain ⟨hsum, hr1, hr26⟩ := hqr
    obtain ⟨hcv, hcl⟩ := alpha_char_val r hr1 hr26
    rw [hstep]
    by_cases hq0 : q = 0
    · rw [if_pos hq0]
      refine ⟨?_, ?_, by simp⟩
      · rw [l2n_single, hcv]
        omega
      · intro c hc
        rcases List.mem_singleton.mp hc with rfl
        exact hcl
    · rw [if_neg hq0]
      by_cases hq26 : q ≤ 26
      · rw [if_pos hq26]
        obtain ⟨hcv2, hcl2⟩ := alpha_char_val q (by omega) hq26
        refine ⟨?_, ?_, by simp⟩
        · show _letters_to_numbers ([ALPHABET.getD (q - 1) 'A'] ++ [ALPHABET.getD (r - 1) 'A']) = n
          rw [l2n_append_char, l2n_single, hcv, hcv2]
          omega
        · intro c hc
          rcases List.mem_cons.mp hc with rfl | hc
          · exact hcl2
          · rcases List.mem_singleton.mp hc with rfl
            exact hcl
      · rw [if_neg hq26]
        have hqlt : q < n := by omega
        obtain ⟨ihv, ihl, ihne⟩ := ih q hqlt (by omega) f' (by omega)
        refine ⟨?_, ?_, by simp⟩
        · rw [l2n_append_char, ihv, hcv]
          omega
        · intro c hc
          rcases List.mem_append.mp hc with hc | hc
          · exact ihl c hc
          · rcases List.mem_singleton.mp hc with rfl
            exact hcl

theorem n2l_spec (n : Nat) (hn : 1 ≤ n) :
    _letters_to_numbers (_numbers_to_letters n) = n ∧
    (∀ c ∈ _numbers_to_letters n, isA1Letter c = true) ∧
    _numbers_to_letters n ≠ [] := n2l_inverse n hn n (le_refl n)

/-!  The `A1_NOTATION` pattern. -/

theorem digit_not_letter (c : Char) (hc : isDigitChar c = true) : isA1Letter c = false := by
  simp only [isDigitChar, Bool.and_eq_true, decide_eq_true_eq] at hc
  have hnot : ¬ (isA1Letter c = true) := by
    simp only [isA1Letter, Bool.or_eq_true, Bool.and_eq_true, decide_eq_true_eq]
    omega
  simpa using hnot

theorem splitA1_some_iff (s : String) (L D : List Char) :
    splitA1 s = some (L, D) ↔
      (s.toList = L ++ D ∧ L ≠ [] ∧ D ≠ [] ∧ (∀ c ∈ L, isA1Letter c = true) ∧
        ∀ c ∈ D, isDigitChar c = true) := by
  constructor
  · intro h
    simp only [splitA1] at h
    split at h
    · rename_i hcond
      obtain ⟨h1, h2, h3⟩ := hcond
      obtain ⟨rfl, rfl⟩ : s.toList.takeWhile isA1Letter = L ∧ s.toList.dropWhile isA1Letter = D := by
        have := Option.some.inj h
        exact ⟨congrArg Prod.fst this, congrArg Prod.snd this⟩
      refine ⟨(List.takeWhile_append_dropWhile _ _).symm, h1, h2, ?_, ?_⟩
      · intro c hc
        exact List.mem_takeWhile_imp hc
      · intro c hc
        exact (List.all_eq_true.mp h3) c hc
    · exact absurd h (by simp)
  · rintro ⟨hs, hL, hD, hLl, hDd⟩
    obtain ⟨d, D', rfl⟩ : ∃ d D', D = d :: D' := by
      cases D with
      | nil => exact absurd rfl hD
      | cons d D' => exact ⟨d, D', rfl⟩
    have hstop := takeWhile_append_stop (p := isA1Letter) L d D' hLl
      (digit_not_letter d (hDd d (List.mem_cons_self d D')))
    simp only [splitA1]
    rw [hs, hstop.1, hstop.2]
    rw [if_pos ⟨hL, by simp, List.all_eq_true.mpr hDd⟩]

theorem a1_to_index_ok (s : String) (L D : List Char) (h : splitA1 s = some (L, D)) :
    Sheet.a1_to_index (.Text s) = .ok (_letters_to_numbers L, digitsVal D) := by
  show (match splitA1 s with
    | some (letters, numbers) => pure (_letters_to_numbers letters, digitsVal numbers)
    | none => throw ( .InvalidA1Notation s) : Except Err (Nat × Nat)) = _
  rw [h]
  rfl

theorem a1_to_index_err (s : String) (h : splitA1 s = none) :
    Sheet.a1_to_index (.Text s) = .error ( .InvalidA1Notation s) := by
  show (match splitA1 s with
    | some (letters, numbers) => pure (_letters_to_numbers letters, digitsVal numbers)
    | none => throw ( .InvalidA1Notation s) : Except Err (Nat × Nat)) = _
  rw [h]
  rfl

theorem index_a1_roundtrip (c r : Nat) (hc : 1 ≤ c) (hr : 1 ≤ r) :
    Sheet.index_to_a1 (c, r) = .ok (String.mk (_numbers_to_letters c ++ natChars r)) ∧
    Sheet.a1_to_index (.Text (String.mk (_numbers_to_letters c ++ natChars r))) = .ok (c, r) := by
  obtain ⟨hlv, hll, hlne⟩ := n2l_spec c hc
  obtain ⟨hdv, hdd, hdne⟩ := natChars_spec r
  constructor
  · unfold Sheet.index_to_a1
    rw [if_neg (by omega)]
    rfl
  · have hsplit : splitA1 (String.mk (_numbers_to_letters c ++ natChars r)) =
        some (_numbers_to_letters c, natChars r) := by
      rw [splitA1_some_iff]
      exact ⟨rfl, hlne, hdne, hll, hdd⟩
    rw [a1_to_index_ok _ _ _ hsplit, hlv, hdv]

theorem a1_index_roundtrip (s : String) (p : Nat × Nat)
    (h : Sheet.a1_to_index (.Text s) = .ok p) (hrow : 1 ≤ p.2) :
    ∃ s2, Sheet.index_to_a1 p = .ok s2 ∧ Sheet.a1_to_index (.Text s2) = .ok p := by
  cases hsp : splitA1 s with
  | none =>
    rw [a1_to_index_err s hsp] at h
    exact absurd h (by simp)
  | some ld =>
    obtain ⟨L, D⟩ := ld
    rw [a1_to_index_ok s L D hsp] at h
    have hp : p = (_letters_to_numbers L, digitsVal D) := (Except.ok.inj h).symm
    have hL : L ≠ [] := ((splitA1_some_iff s L D).mp hsp).2.1
    have hc1 : 1 ≤ _letters_to_numbers L := l2n_pos L hL
    obtain ⟨h1, h2⟩ := index_a1_roundtrip (_letters_to_numbers L) (digitsVal D) hc1 (by
      rw [hp] at hrow
      exact hrow)
    subst hp
    exact ⟨_, h1, h2⟩

/-!  Reductions for `Except` binds and the fetch loop. -/

theorem eb_ok {α β : Type} (x : α) (f : α → Except Err β) :
    (Except.ok x : Except Err α) >>= f = f x := rfl

theorem eb_err {α β : Type} (e : Err) (f : α → Except Err β) :
    (Except.error e : Except Err α) >>= f = .error e := rfl

theorem read_of_getCell_none (sh : Sheet) (k : Nat × Nat) (d : Value)
    (h : sh.getCell k = none) : sh.read k d = Sheet.interpret_value d := by
  unfold Sheet.read
  rw [h]
  rfl

theorem read_of_getCell_some (sh : Sheet) (k : Nat × Nat) (d v : Value)
    (h : sh.getCell k = some v) : sh.read k d = Sheet.interpret_value v := by
  unfold Sheet.read
  rw [h]
  rfl

theorem stepI_halt_text (s : Interp) (h : s.sheet.read s.ip (.Text "HALT") = .Text "HALT") :
    stepI s = .ok .halt := by
  unfold stepI
  rw [h]
  rfl

theorem stepI_halt_number (s : Interp) (q : ℚ)
    (h : s.sheet.read s.ip (.Text "HALT") = .Number q) : stepI s = .ok .halt := by
  unfold stepI
  rw [h]
  rfl

theorem run_of_halt (n : Nat) (s : Interp) (h : stepI s = .ok .halt) :
    run (n + 1) s = .halted s := by
  show (match stepI s with
    | .error e => RunResult.err e
    | .ok .halt => .halted s
    | .ok (.cont s2) => run n s2) = _
  rw [h]

theorem interpret_HALT : Sheet.interpret_value (.Text "HALT") = .Text "HALT" := rfl

/-!  Arithmetic handler lemmas. -/

theorem binary_check_ok (st st2 : Stack) (a b : ℚ)
    (h : st.popn 2 = .ok ([.Number a, .Number b], st2)) :
    _binary_arithmetic_check st = .ok ((a, b), st2) := by
  unfold _binary_arithmetic_check
  rw [h]
  rfl

theorem binary_check_err (st st2 : Stack) (v1 v2 : Value)
    (h : st.popn 2 = .ok ([v1, v2], st2))
    (hnf : v1.isFloat = false ∨ v2.isFloat = false) :
    _binary_arithmetic_check st = .error .ArithmeticError := by
  unfold _binary_arithmetic_check
  rw [h]
  cases v1 <;> cases v2 <;> first
    | rfl
    | (simp [Value.isFloat] at hnf)

theorem do_ADD_ok (s : Interp) (a b : ℚ) (st2 : Stack)
    (h : s.stack.popn 2 = .ok ([.Number a, .Number b], st2)) :
    do_ADD s = .ok ({ s with stack := st2.push (.Number (a + b)) }, false) := by
  unfold do_ADD
  rw [binary_check_ok s.stack st2 a b h]
  rfl

theorem do_SUB_ok (s : Interp) (a b : ℚ) (st2 : Stack)
    (h : s.stack.popn 2 = .ok ([.Number a, .Number b], st2)) :
    do_SUB s = .ok ({ s with stack := st2.push (.Number (a - b)) }, false) := by
  unfold do_SUB
  rw [binary_check_ok s.stack st2 a b h]
  rfl

theorem do_MULT_ok (s : Interp) (a b : ℚ) (st2 : Stack)
    (h : s.stack.popn 2 = .ok ([.Number a, .Number b], st2)) :
    do_MULT s = .ok ({ s with stack := st2.push (.Number (a * b)) }, false) := by
  unfold do_MULT
  rw [binary_check_ok s.stack st2 a b h]
  rfl

theorem do_DIV_ok (s : Interp) (a b : ℚ) (st2 : Stack) (hb : b ≠ 0)
    (h : s.stack.popn 2 = .ok ([.Number a, .Number b], st2)) :
    do_DIV s = .ok ({ s with stack := st2.push (.Number (a / b)) }, false) := by
  unfold do_DIV
  rw [binary_check_ok s.stack st2 a b h]
  show (if b = 0 then _ else _) = _
  rw [if_neg hb]
  rfl

theorem do_FDIV_ok (s : Interp) (a b : ℚ) (st2 : Stack) (hb : b ≠ 0)
    (h : s.stack.popn 2 = .ok ([.Number a, .Number b], st2)) :
    do_FDIV s = .ok ({ s with stack := st2.push (.Number (a / b)) }, false) := by
  unfold do_FDIV
  rw [binary_check_ok s.stack st2 a b h]
  show (if b = 0 then _ else _) = _
  rw [if_neg hb]
  rfl

theorem do_MOD_ok (s : Interp) (a b : ℚ) (st2 : Stack) (hb : b ≠ 0)
    (h : s.stack.popn 2 = .ok ([.Number a, .Number b], st2)) :
    do_MOD s = .ok ({ s with stack := st2.push (.Number (pyFMod a b)) }, false) := by
  unfold do_MOD
  rw [binary_check_ok s.stack st2 a b h]
  show (if b = 0 then _ else _) = _
  rw [if_neg hb]
  rfl

theorem arith_err_all (s : Interp) (st2 : Stack) (v1 v2 : Value)
    (h : s.stack.popn 2 = .ok ([v1, v2], st2))
    (hnf : v1.isFloat = false ∨ v2.isFloat = false) :
    do_ADD s = .error .ArithmeticError ∧ do_SUB s = .error .ArithmeticError ∧
    do_MULT s = .error .ArithmeticError ∧ do_DIV s = .error .ArithmeticError ∧
    do_FDIV s = .error .ArithmeticError ∧ do_MOD s = .error .ArithmeticError := by
  have hc := binary_check_err s.stack st2 v1 v2 h hnf
  refine ⟨?_, ?_, ?_, ?_, ?_, ?_⟩ <;>
    first
      | (unfold do_ADD; rw [hc]; rfl)
      | (unfold do_SUB; rw [hc]; rfl)
      | (unfold do_MULT; rw [hc]; rfl)
      | (unfold do_DIV; rw [hc]; rfl)
      | (unfold do_FDIV; rw [hc]; rfl)
      | (unfold do_MOD; rw [hc]; rfl)

theorem popn_two (st : Stack) (vs : List Value) (v1 v2 : Value) (hf : st.frames = [])
    (hv : st.values = vs ++ [v1, v2]) :
    st.popn 2 = .ok ([v1, v2], ⟨vs, []⟩) := by
  unfold Stack.popn
  rw [hf, hv]
  simp only [List.getLast?_nil]
  have hlen : (vs ++ [v1, v2]).length = vs.length + 2 := by simp
  rw [hlen]
  rw [if_neg (by omega)]
  have h1 : vs.length + 2 - 2 = vs.length := by omega
  have h2 : ¬ (vs.length + 2 = 0) := by omega
  simp only [if_neg h2, h1]
  have h3 : (if (2 : Nat) = 0 then 0 else vs.length) = vs.length := by norm_num
  rw [h3, List.drop_left, List.take_left]
  rfl

/-!  CALL/RETURN lemmas. -/

theorem argument_ok (ip : Nat × Nat) (n : Nat) (h1 : ip.1 ≠ 0) (h2 : ip.2 ≠ 0) :
    Interpreter.argument ip n = .ok (ip.1 + n, ip.2) := by
  unfold Interpreter.argument
  rw [if_neg (by tauto)]
  rfl

theorem push_frame_content (st : Stack) (args : ℚ) (st2 : Stack)
    (h : st.push_frame args = .ok st2) :
    st2 = { st with frames := st.frames ++ [(st.values.length : ℚ) - args] } := by
  simp only [Stack.push_frame] at h
  split at h
  · split at h
    · exact absurd h (by simp)
    · exact (Except.ok.inj h).symm
  · split at h
    · exact absurd h (by simp)
    · exact (Except.ok.inj h).symm

theorem do_CALL_spec (s : Interp) (t : Nat × Nat) (n : ℚ) (st2 : Stack)
    (h1 : s.ip.1 ≠ 0) (h2 : s.ip.2 ≠ 0)
    (ha : Sheet.a1_to_index (s.sheet.read (s.ip.1 + 1, s.ip.2) (.Text "")) = .ok t)
    (hn : s.sheet.read (s.ip.1 + 2, s.ip.2) (.IntVal 0) = .Number n)
    (hf : s.stack.push_frame n = .ok st2) :
    do_CALL s = .ok ({ s with stack := st2, ret_stack := s.ret_stack ++ [s.ip], ip := t }, true) := by
  unfold do_CALL
  rw [argument_ok s.ip 1 h1 h2, eb_ok, ha, eb_ok, argument_ok s.ip 2 h1 h2, eb_ok, hn]
  show (s.stack.push_frame n) >>= _ = _
  rw [hf, eb_ok]
  rfl

theorem do_RETURN_spec (s : Interp) (rs : List (Nat × Nat)) (a : Nat × Nat)
    (h : s.ret_stack = rs ++ [a]) :
    do_RETURN s = .ok ({ s with ip := a, ret_stack := rs, stack := s.stack.pop_frame }, false) := by
  unfold do_RETURN
  rw [h, List.getLast?_concat, List.dropLast_concat]
  rfl

/-!  COMPARE/LT/GT lemmas. -/

theorem do_COMPARE_resolved (s : Interp) (ad : Nat × Nat) (p : Value)
    (h1 : s.ip.1 ≠ 0) (h2 : s.ip.2 ≠ 0)
    (ha : Sheet.a1_to_index (s.sheet.read (s.ip.1 + 1, s.ip.2) (.Text "")) = .ok ad)
    (hp : s.stack.peek 1 = .ok p) :
    do_COMPARE s = .ok ({ s with cond := pyEq p (s.sheet.read ad (.Text "")) }, false) := by
  simp only [do_COMPARE]
  rw [argument_ok s.ip 1 h1 h2, eb_ok, ha, eb_ok, hp, eb_ok]
  rfl

theorem do_COMPARE_fallback (s : Interp) (e : Err) (p1 p2 : Value)
    (h1 : s.ip.1 ≠ 0) (h2 : s.ip.2 ≠ 0)
    (ha : Sheet.a1_to_index (s.sheet.read (s.ip.1 + 1, s.ip.2) (.Text "")) = .error e)
    (hp2 : s.stack.peek 2 = .ok p2) (hp1 : s.stack.peek 1 = .ok p1) :
    do_COMPARE s = .ok ({ s with cond := pyEq p2 p1 }, false) := by
  simp only [do_COMPARE]
  rw [argument_ok s.ip 1 h1 h2, eb_ok, ha, eb_err, hp2, eb_ok, hp1, eb_ok]
  rfl

theorem do_LT_resolved (s : Interp) (ad : Nat × Nat) (p : Value) (bl : Bool)
    (h1 : s.ip.1 ≠ 0) (h2 : s.ip.2 ≠ 0)
    (ha : Sheet.a1_to_index (s.sheet.read (s.ip.1 + 1, s.ip.2) (.Text "")) = .ok ad)
    (hp : s.stack.peek 1 = .ok p)
    (hc : pyLtB p (s.sheet.read ad (.Text "")) = .ok bl) :
    do_LT s = .ok ({ s with cond := bl }, false) := by
  simp only [do_LT]
  rw [argument_ok s.ip 1 h1 h2, eb_ok, ha, eb_ok, hp, eb_ok, hc]
  rfl

theorem do_LT_fallback (s : Interp) (e : Err) (p1 p2 : Value) (bl : Bool)
    (h1 : s.ip.1 ≠ 0) (h2 : s.ip.2 ≠ 0)
    (ha : Sheet.a1_to_index (s.sheet.read (s.ip.1 + 1, s.ip.2) (.Text "")) = .error e)
    (hp2 : s.stack.peek 2 = .ok p2) (hp1 : s.stack.peek 1 = .ok p1)
    (hc : pyLtB p2 p1 = .ok bl) :
    do_LT s = .ok ({ s with cond := bl }, false) := by
  simp only [do_LT]
  rw [argument_ok s.ip 1 h1 h2, eb_ok, ha, eb_err, hp2, eb_ok, hp1, eb_ok, hc, eb_ok]
  rfl

theorem do_GT_resolved (s : Interp) (ad : Nat × Nat) (p : Value) (bl : Bool)
    (h1 : s.ip.1 ≠ 0) (h2 : s.ip.2 ≠ 0)
    (ha : Sheet.a1_to_index (s.sheet.read (s.ip.1 + 1, s.ip.2) (.Text "")) = .ok ad)
    (hp : s.stack.peek 1 = .ok p)
    (hc : pyGtB p (s.sheet.read ad (.Text "")) = .ok bl) :
    do_GT s = .ok ({ s with cond := bl }, false) := by
  simp only [do_GT]
  rw [argument_ok s.ip 1 h1 h2, eb_ok, ha, eb_ok, hp, eb_ok, hc]
  rfl

theorem do_GT_fallback (s : Interp) (e : Err) (p1 p2 : Value) (bl : Bool)
    (h1 : s.ip.1 ≠ 0) (h2 : s.ip.2 ≠ 0)
    (ha : Sheet.a1_to_index (s.sheet.read (s.ip.1 + 1, s.ip.2) (.Text "")) = .error e)
    (hp2 : s.stack.peek 2 = .ok p2) (hp1 : s.stack.peek 1 = .ok p1)
    (hc : pyGtB p2 p1 = .ok bl) :
    do_GT s = .ok ({ s with cond := bl }, false) := by
  simp only [do_GT]
  rw [argument_ok s.ip 1 h1 h2, eb_ok, ha, eb_err, hp2, eb_ok, hp1, eb_ok, hc, eb_ok]
  rfl

theorem resolution_error_propagates (s : Interp) (e : Err)
    (h1 : s.ip.1 ≠ 0) (h2 : s.ip.2 ≠ 0)
    (ha : Sheet.a1_to_index (s.sheet.read (s.ip.1 + 1, s.ip.2) (.Text "")) = .error e) :
    do_LOAD_CELL s = .error e ∧ do_STORE_CELL s = .error e ∧ do_JUMP s = .error e ∧
    do_CALL s = .error e ∧
    (s.cond = true → do_JUMP_IF s = .error e ∧ do_CALL_IF s = .error e) := by
  have hl : do_LOAD_CELL s = .error e := by
    unfold do_LOAD_CELL
    rw [argument_ok s.ip 1 h1 h2, eb_ok, ha, eb_err]
  have hs : do_STORE_CELL s = .error e := by
    unfold do_STORE_CELL
    rw [argument_ok s.ip 1 h1 h2, eb_ok, ha, eb_err]
  have hj : do_JUMP s = .error e := by
    unfold do_JUMP
    rw [argument_ok s.ip 1 h1 h2, eb_ok, ha, eb_err]
  have hcall : do_CALL s = .error e := by
    unfold do_CALL
    rw [argument_ok s.ip 1 h1 h2, eb_ok, ha, eb_err]
  refine ⟨hl, hs, hj, hcall, fun hcond => ⟨?_, ?_⟩⟩
  · unfold do_JUMP_IF
    rw [if_pos hcond, hj]
  · unfold do_CALL_IF
    rw [if_pos hcond, hcall]

/-!  RANDINT pushes a Python int. -/

theorem do_RANDINT_pushes_int (s : Interp) (s2 : Interp) (b : Bool)
    (h : do_RANDINT s = .ok (s2, b)) :
    ∃ z rz, s2 = { s with stack := s.stack.push (.IntVal z), randz := rz } ∧ b = false := by
  unfold do_RANDINT at h
  cases ha1 : Interpreter.argument s.ip 1 with
  | error e => rw [ha1, eb_err] at h; exact absurd h (by simp)
  | ok a1 =>
    rw [ha1, eb_ok] at h
    cases hm0 : s.sheet.read a1 (.Text "") with
    | Number mq =>
      rw [hm0] at h
      cases ha2 : Interpreter.argument s.ip 2 with
      | error e => rw [ha2, eb_err] at h; exact absurd h (by simp)
      | ok a2 =>
        rw [ha2, eb_ok] at h
        simp only at h
        repeat' split at h
        all_goals first
          | (injection h
             done)
          | (injection h with hinj
             injection hinj with hfst hsnd
             exact ⟨_, _, hfst.symm, hsnd.symm⟩)
    | IntVal z =>
      rw [hm0] at h
      cases ha2 : Interpreter.argument s.ip 2 with
      | error e => rw [ha2, eb_err] at h; exact absurd h (by simp)
      | ok a2 =>
        rw [ha2, eb_ok] at h
        injection h
    | Text t =>
      rw [hm0] at h
      cases ha2 : Interpreter.argument s.ip 2 with
      | error e => rw [ha2, eb_err] at h; exact absurd h (by simp)
      | ok a2 =>
        rw [ha2, eb_ok] at h
        injection h

theorem binary_check_intval (st st2 : Stack) (z : ℤ) (v : Value)
    (h : st.popn 2 = .ok ([.IntVal z, v], st2) ∨ st.popn 2 = .ok ([v, .IntVal z], st2)) :
    _binary_arithmetic_check st = .error .ArithmeticError := by
  rcases h with h | h
  · exact binary_check_err st st2 _ _ h (Or.inl rfl)
  · exact binary_check_err st st2 _ _ h (Or.inr rfl)

theorem do_DIV_zero (s : Interp) (a : ℚ) (st2 : Stack)
    (h : s.stack.popn 2 = .ok ([.Number a, .Number 0], st2)) :
    do_DIV s = .error .ZeroDivisionError := by
  unfold do_DIV
  rw [binary_check_ok s.stack st2 a 0 h]
  rfl

/-!  Claim theorems. -/

/-- Claim C7 (code bug): the source's `Stack.peek` subscripts the frame list
at the fixed index 1 instead of -1, so with exactly one active frame the
subscript itself raises `IndexError` and `peek(1)` always fails, while `pop`
on the same stack succeeds — contradicting "same underflow/frame rules as
pop". -/
theorem c7_peek_frame_bug :
    singleFrameStack.peek 1 = .error .IndexError ∧
    singleFrameStack.pop = .ok (.Number 10, ⟨[], [0]⟩) := by
  exact ⟨by with_unfolding_all decide, by with_unfolding_all decide⟩

/-- Claim C8, counterexample: `a1_to_index` accepts "A0" and returns the
non-positive row index (1, 0) instead of failing. -/
theorem c8_counterexample : Sheet.a1_to_index (.Text "A0") = .ok (1, 0) := by
  with_unfolding_all decide

/-- Claim C8 (amended): `a1_to_index` fails with `InvalidA1Notation` exactly
on the strings that do not split as one-or-more letters followed by
one-or-more digits; a non-positive row such as "A0" is NOT rejected — it
parses to (1, 0). -/
theorem c8_amended_parse :
    (∀ s : String, splitA1 s = none →
      Sheet.a1_to_index (.Text s) = .error ( .InvalidA1Notation s)) ∧
    (∀ (s : String) (L D : List Char), splitA1 s = some (L, D) ↔
      (s.toList = L ++ D ∧ L ≠ [] ∧ D ≠ [] ∧ (∀ c ∈ L, isA1Letter c = true) ∧
        ∀ c ∈ D, isDigitChar c = true)) ∧
    Sheet.a1_to_index (.Text "A0") = .ok (1, 0) :=
  ⟨a1_to_index_err, splitA1_some_iff, by with_unfolding_all decide⟩

/-- Witness for the amended C8 at the concrete non-matching input "1A". -/
theorem c8_amended_parse_witness :
    splitA1 "1A" = none ∧
    Sheet.a1_to_index (.Text "1A") = .error ( .InvalidA1Notation "1A") :=
  ⟨by with_unfolding_all decide, c8_amended_parse.1 "1A" (by with_unfolding_all decide)⟩

/-- Claim C9 (code bug): `run` resolves handlers with a two-argument
`getattr`, which raises `AttributeError` for a missing handler before the
`if not method: raise InvalidOpcode(...)` line can run (that line is dead
code), so an unrecognized opcode terminates the run with `AttributeError`,
not the intended `InvalidOpcode`; recognized names do dispatch to their
handlers. -/
theorem c9_unknown_opcode :
    run 2 (mkInterp sheetBogus) = .err (.AttributeError "do_BOGUS") ∧
    getHandler "do_BOGUS" = none ∧
    getHandler "do_ADD" = some do_ADD ∧
    getHandler "do_HALT" = none ∧
    getHandler "do_RETURN" = some do_RETURN := by
  exact ⟨by with_unfolding_all decide, rfl, rfl, rfl, rfl⟩

/-- Claim C3, counterexample: "A0" is of letters-then-digits shape, so
`a1_to_index` parses it — to the pair (1, 0) — but `index_to_a1` then fails
its positivity assertion, so `formatA1(parseA1("A0"))` raises instead of
denoting the same coordinates. -/
theorem c3_counterexample :
    Sheet.a1_to_index (.Text "A0") = .ok (1, 0) ∧
    Sheet.index_to_a1 (1, 0) = .error (.AssertionError "Invalid index!") := by
  exact ⟨by with_unfolding_all decide, by with_unfolding_all decide⟩

set_option maxRecDepth 8000 in
/-- Claim C3 (amended): for positive pairs (c, r) with c, r ≤ 10000 the
format-then-parse round trip is exact, and every address string that parses
to a pair with a POSITIVE row formats back to a string denoting the same
coordinates (row 0, reachable via "A0", is the one exception); the five
concrete anchors hold in both directions. -/
theorem c3_amended_roundtrip :
    (∀ c r : Nat, 1 ≤ c → c ≤ 10000 → 1 ≤ r → r ≤ 10000 →
      (Sheet.index_to_a1 (c, r) >>= fun a1s => Sheet.a1_to_index (.Text a1s)) =
        .ok (c, r)) ∧
    (∀ (s : String) (p : Nat × Nat), Sheet.a1_to_index (.Text s) = .ok p → 1 ≤ p.2 →
      (Sheet.index_to_a1 p >>= fun s2 => Sheet.a1_to_index (.Text s2)) = .ok p) ∧
    (Sheet.index_to_a1 (1, 1) = .ok "A1" ∧ Sheet.a1_to_index (.Text "A1") = .ok (1, 1)) ∧
    (Sheet.index_to_a1 (26, 1) = .ok "Z1" ∧ Sheet.a1_to_index (.Text "Z1") = .ok (26, 1)) ∧
    (Sheet.index_to_a1 (27, 1) = .ok "AA1" ∧ Sheet.a1_to_index (.Text "AA1") = .ok (27, 1)) ∧
    (Sheet.index_to_a1 (702, 3) = .ok "ZZ3" ∧ Sheet.a1_to_index (.Text "ZZ3") = .ok (702, 3)) ∧
    (Sheet.index_to_a1 (703, 3) = .ok "AAA3" ∧
      Sheet.a1_to_index (.Text "AAA3") = .ok (703, 3)) := by
  refine ⟨?_, ?_, ?_, ?_, ?_, ?_, ?_⟩
  · intro c r hc _ hr _
    obtain ⟨h1, h2⟩ := index_a1_roundtrip c r hc hr
    rw [h1, eb_ok]
    exact h2
  · intro str p hp hrow
    obtain ⟨s2, h1, h2⟩ := a1_index_roundtrip str p hp hrow
    rw [h1, eb_ok]
    exact h2
  · exact ⟨by with_unfolding_all decide, by with_unfolding_all decide⟩
  · exact ⟨by with_unfolding_all decide, by with_unfolding_all decide⟩
  · exact ⟨by with_unfolding_all decide, by with_unfolding_all decide⟩
  · exact ⟨by with_unfolding_all decide, by with_unfolding_all decide⟩
  · exact ⟨by with_unfolding_all decide, by with_unfolding_all decide⟩

set_option maxRecDepth 8000 in
/-- Witness for the amended C3 at (703, 3) and at the parsed string "ZZ3". -/
theorem c3_amended_roundtrip_witness :
    ((1 : Nat) ≤ 703 ∧ (703 : Nat) ≤ 10000 ∧ (1 : Nat) ≤ 3 ∧ (3 : Nat) ≤ 10000 ∧
      (Sheet.index_to_a1 (703, 3) >>= fun a1s => Sheet.a1_to_index (.Text a1s)) =
        .ok (703, 3)) ∧
    (Sheet.a1_to_index (.Text "ZZ3") = .ok (702, 3) ∧ 1 ≤ (702, 3).2 ∧
      (Sheet.index_to_a1 (702, 3) >>= fun s2 => Sheet.a1_to_index (.Text s2)) =
        .ok (702, 3)) := by
  have hp : Sheet.a1_to_index (.Text "ZZ3") = .ok (702, 3) := by with_unfolding_all decide
  refine ⟨⟨by norm_num, by norm_num, by norm_num, by norm_num, ?_⟩, ⟨hp, by norm_num, ?_⟩⟩
  · exact c3_amended_roundtrip.1 703 3 (by norm_num) (by norm_num) (by norm_num) (by norm_num)
  · exact c3_amended_roundtrip.2.1 "ZZ3" (702, 3) hp (by norm_num)

/-- Claim C1, counterexample: an explicitly stored empty string, a
lowercase "halt", and a raw numeric 0.0 at the instruction pointer all make
`run()` raise `AttributeError` (the empty string and "halt" survive the
case-SENSITIVE `opcode == "HALT"` test and reach the handler lookup; 0.0 is
falsy in `interpret_value`'s walrus test, so it is read back as the STRING
"0.0" and is therefore textual), contradicting "stops normally". -/
theorem c1_counterexample :
    run 2 (mkInterp sheetEmptyOpcode) = .err (.AttributeError "do_") ∧
    run 2 (mkInterp sheetLowerHalt) = .err (.AttributeError "do_HALT") ∧
    run 2 (mkInterp sheetRawZero) = .err (.AttributeError "do_0.0") := by
  exact ⟨by with_unfolding_all decide, by with_unfolding_all decide,
    by with_unfolding_all decide⟩

/-- Claim C1 (amended): `run()` stops normally when the cell at the
instruction pointer is unset (blank), holds a NONZERO float whose decimal
text reparses to itself, or holds exactly the uppercase text "HALT"; an
explicitly stored empty string, a differently-cased "halt", and the float
0.0 instead raise a missing-handler error (the dispatch `opcode.upper()` is
case-insensitive, but the halt test is not). -/
theorem c1_amended_halting :
    (∀ (n : Nat) (s : Interp), s.sheet.getCell s.ip = none → run (n + 1) s = .halted s) ∧
    (∀ (n : Nat) (s : Interp) (q : ℚ), s.sheet.getCell s.ip = some (.Number q) → q ≠ 0 →
      (∃ j, (q.den : ℕ) ∣ 10 ^ j) → run (n + 1) s = .halted s) ∧
    (∀ (n : Nat) (s : Interp), s.sheet.getCell s.ip = some (.Text "HALT") →
      run (n + 1) s = .halted s) := by
  refine ⟨?_, ?_, ?_⟩
  · intro n s h
    refine run_of_halt n s (stepI_halt_text s ?_)
    rw [read_of_getCell_none _ _ _ h]
    rfl
  · intro n s q h hq hdec
    refine run_of_halt n s (stepI_halt_number s q ?_)
    rw [read_of_getCell_some _ _ _ _ h]
    exact interpret_value_Number q hq hdec
  · intro n s h
    refine run_of_halt n s (stepI_halt_text s ?_)
    rw [read_of_getCell_some _ _ _ _ h]
    rfl

/-- Witness for the amended C1: a blank sheet, a raw 5.0 cell, and a stored
"HALT" cell each halt normally. -/
theorem c1_amended_halting_witness :
    ((mkInterp sheet0).sheet.getCell (mkInterp sheet0).ip = none ∧
      run 1 (mkInterp sheet0) = .halted (mkInterp sheet0)) ∧
    ((mkInterp sheetRawFive).sheet.getCell (mkInterp sheetRawFive).ip = some (.Number 5) ∧
      (5 : ℚ) ≠ 0 ∧ (((5 : ℚ).den : ℕ)) ∣ 10 ^ 0 ∧
      run 1 (mkInterp sheetRawFive) = .halted (mkInterp sheetRawFive)) ∧
    ((mkInterp sheetHalt).sheet.getCell (mkInterp sheetHalt).ip = some (.Text "HALT") ∧
      run 1 (mkInterp sheetHalt) = .halted (mkInterp sheetHalt)) := by
  have h1 : (mkInterp sheet0).sheet.getCell (mkInterp sheet0).ip = none := by
    with_unfolding_all decide
  have h2 : (mkInterp sheetRawFive).sheet.getCell (mkInterp sheetRawFive).ip =
      some (.Number 5) := by with_unfolding_all decide
  have h3 : (mkInterp sheetHalt).sheet.getCell (mkInterp sheetHalt).ip =
      some (.Text "HALT") := by with_unfolding_all decide
  have hq : (5 : ℚ) ≠ 0 := by norm_num
  have hdec0 : (((5 : ℚ).den : ℕ)) ∣ 10 ^ 0 := by norm_num
  exact ⟨⟨h1, c1_amended_halting.1 0 _ h1⟩,
    ⟨h2, hq, hdec0, c1_amended_halting.2.1 0 _ 5 h2 hq ⟨0, hdec0⟩⟩,
    ⟨h3, c1_amended_halting.2.2 0 _ h3⟩⟩

/-- Claim C2, counterexample: "0" parses as the number 0.0, but the walrus
truthiness test in `interpret_value` treats 0.0 as false, so writing "0"
and reading it back yields the TEXT "0", not a number. -/
theorem c2_counterexample :
    _safe_float "0" = some 0 ∧
    (Sheet.write sheet0 (1, 1) (.Text "0")).read (1, 1) (.Text "") = .Text "0" := by
  exact ⟨by with_unfolding_all decide, by with_unfolding_all decide⟩

/-- Claim C2 (amended): a written string that parses as a NONZERO number
reads back as that number; a string that does not parse as a number reads
back as the same text; writing the int 5 reads back as the float 5.0; and
the concrete anchors "3.14" and "hello" behave as stated.  (Strings parsing
to zero, like "0", read back as text — the one correction.) -/
theorem c2_amended_interpretation :
    (∀ (sh : Sheet) (k : Nat × Nat) (d : Value) (s : String) (n : ℚ),
      _safe_float s = some n → n ≠ 0 → (sh.write k (.Text s)).read k d = .Number n) ∧
    (∀ (sh : Sheet) (k : Nat × Nat) (d : Value) (s : String),
      _safe_float s = none → (sh.write k (.Text s)).read k d = .Text s) ∧
    (Sheet.write sheet0 (1, 1) (.IntVal 5)).read (1, 1) (.Text "") = .Number 5 ∧
    (Sheet.write sheet0 (1, 1) (.Text "3.14")).read (1, 1) (.Text "") = .Number (157 / 50) ∧
    (Sheet.write sheet0 (1, 1) (.Text "hello")).read (1, 1) (.Text "") = .Text "hello" := by
  refine ⟨?_, ?_, ?_, ?_, ?_⟩
  · intro sh k d s n hp hn
    exact read_write_numeric sh k d s n hp hn
  · intro sh k d s hp
    exact read_write_text sh k d s hp
  · with_unfolding_all decide
  · with_unfolding_all decide
  · with_unfolding_all decide

/-- Witness for the amended C2 at the strings "3.14" and "xyz". -/
theorem c2_amended_interpretation_witness :
    (_safe_float "3.14" = some (157 / 50) ∧ (157 / 50 : ℚ) ≠ 0 ∧
      (Sheet.write sheet0 (2, 2) (.Text "3.14")).read (2, 2) (.Text "") = .Number (157 / 50)) ∧
    (_safe_float "xyz" = none ∧
      (Sheet.write sheet0 (2, 2) (.Text "xyz")).read (2, 2) (.Text "") = .Text "xyz") := by
  have hp : _safe_float "3.14" = some (157 / 50) := by with_unfolding_all decide
  have hn : (157 / 50 : ℚ) ≠ 0 := by norm_num
  have hx : _safe_float "xyz" = none := by with_unfolding_all decide
  exact ⟨⟨hp, hn, c2_amended_interpretation.1 sheet0 (2, 2) (.Text "") "3.14" (157 / 50) hp hn⟩,
    ⟨hx, c2_amended_interpretation.2.1 sheet0 (2, 2) (.Text "") "xyz" hx⟩⟩

/-- Claim C4, counterexample: DIV with the numeric pair (1.0, 0.0) — both
operands floats, so past the `ArithmeticError` type check — does not push
`item1 / item2` but raises `ZeroDivisionError`. -/
theorem c4_counterexample :
    divZeroState.stack.values = [.Number 1, .Number 0] ∧
    do_DIV divZeroState = .error .ZeroDivisionError := by
  exact ⟨rfl, by with_unfolding_all decide⟩

/-- Claim C4 (amended): each arithmetic opcode pops exactly two values; a
non-float among them raises `ArithmeticError`; otherwise the result
`item1 OP item2` of the bottom-to-top pair is pushed — PROVIDED the divisor
of DIV/FDIV/MOD is nonzero, a zero divisor raising `ZeroDivisionError`
instead; and DIV and FDIV are the same function (true division). -/
theorem c4_amended_arithmetic :
    (∀ (s : Interp) (a b : ℚ) (st2 : Stack),
      s.stack.popn 2 = .ok ([.Number a, .Number b], st2) →
      do_ADD s = .ok ({ s with stack := st2.push (.Number (a + b)) }, false) ∧
      do_SUB s = .ok ({ s with stack := st2.push (.Number (a - b)) }, false) ∧
      do_MULT s = .ok ({ s with stack := st2.push (.Number (a * b)) }, false) ∧
      (b ≠ 0 →
        do_DIV s = .ok ({ s with stack := st2.push (.Number (a / b)) }, false) ∧
        do_FDIV s = .ok ({ s with stack := st2.push (.Number (a / b)) }, false) ∧
        do_MOD s = .ok ({ s with stack := st2.push (.Number (pyFMod a b)) }, false)) ∧
      (b = 0 → do_DIV s = .error .ZeroDivisionError)) ∧
    (∀ (s : Interp) (v1 v2 : Value) (st2 : Stack),
      s.stack.popn 2 = .ok ([v1, v2], st2) →
      v1.isFloat = false ∨ v2.isFloat = false →
      do_ADD s = .error .ArithmeticError ∧ do_SUB s = .error .ArithmeticError ∧
      do_MULT s = .error .ArithmeticError ∧ do_DIV s = .error .ArithmeticError ∧
      do_FDIV s = .error .ArithmeticError ∧ do_MOD s = .error .ArithmeticError) ∧
    do_DIV = do_FDIV := by
  refine ⟨?_, ?_, rfl⟩
  · intro s a b st2 h
    refine ⟨do_ADD_ok s a b st2 h, do_SUB_ok s a b st2 h, do_MULT_ok s a b st2 h,
      fun hb => ⟨do_DIV_ok s a b st2 hb h, do_FDIV_ok s a b st2 hb h,
        do_MOD_ok s a b st2 hb h⟩, fun hb => ?_⟩
    subst hb
    exact do_DIV_zero s a st2 h
  · intro s v1 v2 st2 h hnf
    exact arith_err_all s st2 v1 v2 h hnf

/-- Witness for the amended C4 on the stack [2.0, 3.0] (5.0 from ADD, 2/3
from DIV) and on [2.0, "x"] for the `ArithmeticError` branch. -/
theorem c4_amended_arithmetic_witness :
    arithState.stack.popn 2 = .ok ([.Number 2, .Number 3], ⟨[], []⟩) ∧ (3 : ℚ) ≠ 0 ∧
    do_ADD arithState =
      .ok ({ arithState with stack := Stack.push ⟨[], []⟩ (.Number (2 + 3)) }, false) ∧
    do_DIV arithState =
      .ok ({ arithState with stack := Stack.push ⟨[], []⟩ (.Number (2 / 3)) }, false) := by
  have h1 : arithState.stack.popn 2 = .ok ([.Number 2, .Number 3], ⟨[], []⟩) := by
    with_unfolding_all decide
  have h2 : (3 : ℚ) ≠ 0 := by norm_num
  exact ⟨h1, h2, (c4_amended_arithmetic.1 arithState 2 3 ⟨[], []⟩ h1).1,
    ((c4_amended_arithmetic.1 arithState 2 3 ⟨[], []⟩ h1).2.2.2.1 h2).1⟩

/-- Claim C5 (confirmed): CALL resolves its target, reads the numeric
argument count n, pushes a frame whose boundary reserves the n most recent
values, appends the pre-call instruction pointer to the return stack and
jumps without auto-advance; RETURN restores that pointer, pops the frame
and falls through to auto-advance; and the concrete scenario (CALL arg
count 1 over stack [10.0] to a cell holding RETURN) ends with the
instruction pointer one row below the CALL, an empty return stack and the
stack still [10.0]. -/
theorem c5_call_return :
    (∀ (s : Interp) (t : Nat × Nat) (n : ℚ) (st2 : Stack),
      s.ip.1 ≠ 0 → s.ip.2 ≠ 0 →
      Sheet.a1_to_index (s.sheet.read (s.ip.1 + 1, s.ip.2) (.Text "")) = .ok t →
      s.sheet.read (s.ip.1 + 2, s.ip.2) (.IntVal 0) = .Number n →
      s.stack.push_frame n = .ok st2 →
      do_CALL s = .ok ({ s with stack := st2, ret_stack := s.ret_stack ++ [s.ip], ip := t }, true) ∧
      st2 = { s.stack with frames := s.stack.frames ++ [(s.stack.values.length : ℚ) - n] }) ∧
    (∀ (s : Interp) (rs : List (Nat × Nat)) (a : Nat × Nat), s.ret_stack = rs ++ [a] →
      do_RETURN s = .ok ({ s with ip := a, ret_stack := rs, stack := s.stack.pop_frame }, false)) ∧
    run 3 callState = .halted { callState with ip := (1, 2) } := by
  refine ⟨?_, ?_, by with_unfolding_all decide⟩
  · intro s t n st2 h1 h2 ha hn hf
    exact ⟨do_CALL_spec s t n st2 h1 h2 ha hn hf, push_frame_content s.stack n st2 hf⟩
  · intro s rs a h
    exact do_RETURN_spec s rs a h

/-- Witness for C5: the CALL and RETURN steps of the concrete scenario. -/
theorem c5_call_return_witness :
    (callState.ip.1 ≠ 0 ∧ callState.ip.2 ≠ 0 ∧
      Sheet.a1_to_index (callState.sheet.read (callState.ip.1 + 1, callState.ip.2)
        (.Text "")) = .ok (1, 5) ∧
      callState.sheet.read (callState.ip.1 + 2, callState.ip.2) (.IntVal 0) = .Number 1 ∧
      callState.stack.push_frame 1 = .ok ⟨[.Number 10], [0]⟩ ∧
      do_CALL callState = .ok ({ callState with stack := ⟨[.Number 10], [0]⟩, ret_stack := callState.ret_stack ++ [callState.ip], ip := (1, 5) }, true)) ∧
    (afterCallState.ret_stack = [] ++ [(1, 1)] ∧
      do_RETURN afterCallState = .ok ({ afterCallState with ip := (1, 1), ret_stack := [], stack := afterCallState.stack.pop_frame }, false)) := by
  have h1 : callState.ip.1 ≠ 0 := by with_unfolding_all decide
  have h2 : callState.ip.2 ≠ 0 := by with_unfolding_all decide
  have ha : Sheet.a1_to_index (callState.sheet.read (callState.ip.1 + 1, callState.ip.2)
      (.Text "")) = .ok (1, 5) := by with_unfolding_all decide
  have hn : callState.sheet.read (callState.ip.1 + 2, callState.ip.2) (.IntVal 0) =
      .Number 1 := by with_unfolding_all decide
  have hf : callState.stack.push_frame 1 = .ok ⟨[.Number 10], [0]⟩ := by
    with_unfolding_all decide
  have hr : afterCallState.ret_stack = [] ++ [(1, 1)] := rfl
  exact ⟨⟨h1, h2, ha, hn, hf, (c5_call_return.1 callState (1, 5) 1 _ h1 h2 ha hn hf).1⟩,
    ⟨hr, c5_call_return.2.1 afterCallState [] (1, 1) hr⟩⟩

/-- Claim C6, counterexample: with argument 1 resolving to a valid address
(B5, holding 3.0) and the text "x" on top of the stack, `do_LT`'s in-try
comparison raises `TypeError`, so despite the successful resolution the
fallback path runs — and here its `peek(2)` underflows, so the handler
raises `IndexError` and no flag is set, contradicting "the condition flag
is set to the comparison of the top-of-stack value against the value read
from that address". -/
theorem c6_counterexample :
    Sheet.a1_to_index (ltState.sheet.read (2, 1) (.Text "")) = .ok (2, 5) ∧
    ltState.stack.peek 1 = .ok (.Text "x") ∧
    do_LT ltState = .error .IndexError := by
  exact ⟨by with_unfolding_all decide, by with_unfolding_all decide,
    by with_unfolding_all decide⟩

/-- Claim C6 (amended): if argument 1 resolves as an address AND every step
of the in-try comparison succeeds, the flag becomes the comparison of the
top of the stack against the resolved cell's value; if the resolution (or
any other step of the try block) fails, the flag becomes the comparison of
the second-from-top against the top, provided those peeks and that
comparison succeed; neither branch pops; and the address-resolution
failures of LOAD_CELL, STORE_CELL, JUMP and CALL propagate — COMPARE/LT/GT
is the only swallow site. -/
theorem c6_amended_compare_fallback :
    (∀ (s : Interp) (ad : Nat × Nat) (p : Value), s.ip.1 ≠ 0 → s.ip.2 ≠ 0 →
      Sheet.a1_to_index (s.sheet.read (s.ip.1 + 1, s.ip.2) (.Text "")) = .ok ad →
      s.stack.peek 1 = .ok p →
      do_COMPARE s = .ok ({ s with cond := pyEq p (s.sheet.read ad (.Text "")) }, false)) ∧
    (∀ (s : Interp) (e : Err) (p1 p2 : Value), s.ip.1 ≠ 0 → s.ip.2 ≠ 0 →
      Sheet.a1_to_index (s.sheet.read (s.ip.1 + 1, s.ip.2) (.Text "")) = .error e →
      s.stack.peek 2 = .ok p2 → s.stack.peek 1 = .ok p1 →
      do_COMPARE s = .ok ({ s with cond := pyEq p2 p1 }, false)) ∧
    (∀ (s : Interp) (ad : Nat × Nat) (p : Value) (bl : Bool), s.ip.1 ≠ 0 → s.ip.2 ≠ 0 →
      Sheet.a1_to_index (s.sheet.read (s.ip.1 + 1, s.ip.2) (.Text "")) = .ok ad →
      s.stack.peek 1 = .ok p → pyLtB p (s.sheet.read ad (.Text "")) = .ok bl →
      do_LT s = .ok ({ s with cond := bl }, false)) ∧
    (∀ (s : Interp) (e : Err) (p1 p2 : Value) (bl : Bool), s.ip.1 ≠ 0 → s.ip.2 ≠ 0 →
      Sheet.a1_to_index (s.sheet.read (s.ip.1 + 1, s.ip.2) (.Text "")) = .error e →
      s.stack.peek 2 = .ok p2 → s.stack.peek 1 = .ok p1 → pyLtB p2 p1 = .ok bl →
      do_LT s = .ok ({ s with cond := bl }, false)) ∧
    (∀ (s : Interp) (ad : Nat × Nat) (p : Value) (bl : Bool), s.ip.1 ≠ 0 → s.ip.2 ≠ 0 →
      Sheet.a1_to_index (s.sheet.read (s.ip.1 + 1, s.ip.2) (.Text "")) = .ok ad →
      s.stack.peek 1 = .ok p → pyGtB p (s.sheet.read ad (.Text "")) = .ok bl →
      do_GT s = .ok ({ s with cond := bl }, false)) ∧
    (∀ (s : Interp) (e : Err) (p1 p2 : Value) (bl : Bool), s.ip.1 ≠ 0 → s.ip.2 ≠ 0 →
      Sheet.a1_to_index (s.sheet.read (s.ip.1 + 1, s.ip.2) (.Text "")) = .error e →
      s.stack.peek 2 = .ok p2 → s.stack.peek 1 = .ok p1 → pyGtB p2 p1 = .ok bl →
      do_GT s = .ok ({ s with cond := bl }, false)) ∧
    (∀ (s : Interp) (e : Err), s.ip.1 ≠ 0 → s.ip.2 ≠ 0 →
      Sheet.a1_to_index (s.sheet.read (s.ip.1 + 1, s.ip.2) (.Text "")) = .error e →
      do_LOAD_CELL s = .error e ∧ do_STORE_CELL s = .error e ∧ do_JUMP s = .error e ∧
      do_CALL s = .error e ∧
      (s.cond = true → do_JUMP_IF s = .error e ∧ do_CALL_IF s = .error e)) := by
  refine ⟨?_, ?_, ?_, ?_, ?_, ?_, ?_⟩
  · intro s ad p h1 h2 ha hp
    exact do_COMPARE_resolved s ad p h1 h2 ha hp
  · intro s e p1 p2 h1 h2 ha hp2 hp1
    exact do_COMPARE_fallback s e p1 p2 h1 h2 ha hp2 hp1
  · intro s ad p bl h1 h2 ha hp hc
    exact do_LT_resolved s ad p bl h1 h2 ha hp hc
  · intro s e p1 p2 bl h1 h2 ha hp2 hp1 hc
    exact do_LT_fallback s e p1 p2 bl h1 h2 ha hp2 hp1 hc
  · intro s ad p bl h1 h2 ha hp hc
    exact do_GT_resolved s ad p bl h1 h2 ha hp hc
  · intro s e p1 p2 bl h1 h2 ha hp2 hp1 hc
    exact do_GT_fallback s e p1 p2 bl h1 h2 ha hp2 hp1 hc
  · intro s e h1 h2 ha
    exact resolution_error_propagates s e h1 h2 ha

/-- Witness for the amended C6: COMPARE with a resolvable argument over the
stack [3.0] sets the flag to the equality of 3.0 with the cell B5 = 3.0. -/
theorem c6_amended_compare_fallback_witness :
    cmpState.ip.1 ≠ 0 ∧ cmpState.ip.2 ≠ 0 ∧
    Sheet.a1_to_index (cmpState.sheet.read (cmpState.ip.1 + 1, cmpState.ip.2)
      (.Text "")) = .ok (2, 5) ∧
    cmpState.stack.peek 1 = .ok (.Number 3) ∧
    do_COMPARE cmpState = .ok ({ cmpState with cond := pyEq (.Number 3) (cmpState.sheet.read (2, 5) (.Text "")) }, false) := by
  have h1 : cmpState.ip.1 ≠ 0 := by with_unfolding_all decide
  have h2 : cmpState.ip.2 ≠ 0 := by with_unfolding_all decide
  have ha : Sheet.a1_to_index (cmpState.sheet.read (cmpState.ip.1 + 1, cmpState.ip.2)
      (.Text "")) = .ok (2, 5) := by with_unfolding_all decide
  have hp : cmpState.stack.peek 1 = .ok (.Number 3) := by with_unfolding_all decide
  exact ⟨h1, h2, ha, hp,
    c6_amended_compare_fallback.1 cmpState (2, 5) (.Number 3) h1 h2 ha hp⟩

/-- Claim C10 (confirmed): every successful `do_RANDINT` pushes a Python
int (`random.randint`'s result, unconverted), the shared arithmetic operand
check accepts only floats, so ADD/SUB/MULT/DIV/FDIV/MOD on a pair
containing that int raise `ArithmeticError` — as the concrete RANDINT-then-
ADD program does. -/
theorem c10_randint_arithmetic :
    (∀ (s s2 : Interp) (b : Bool), do_RANDINT s = .ok (s2, b) →
      ∃ z rz, s2 = { s with stack := s.stack.push (.IntVal z), randz := rz } ∧ b = false) ∧
    (∀ (st st2 : Stack) (z : ℤ) (v : Value),
      st.popn 2 = .ok ([.IntVal z, v], st2) ∨ st.popn 2 = .ok ([v, .IntVal z], st2) →
      _binary_arithmetic_check st = .error .ArithmeticError) ∧
    (∀ (s : Interp) (st2 : Stack) (z : ℤ) (v : Value),
      s.stack.popn 2 = .ok ([.IntVal z, v], st2) ∨
        s.stack.popn 2 = .ok ([v, .IntVal z], st2) →
      do_ADD s = .error .ArithmeticError ∧ do_SUB s = .error .ArithmeticError ∧
      do_MULT s = .error .ArithmeticError ∧ do_DIV s = .error .ArithmeticError ∧
      do_FDIV s = .error .ArithmeticError ∧ do_MOD s = .error .ArithmeticError) ∧
    run 2 randintState = .err .ArithmeticError := by
  refine ⟨do_RANDINT_pushes_int, binary_check_intval, ?_, by with_unfolding_all decide⟩
  intro s st2 z v h
  rcases h with h | h
  · exact arith_err_all s st2 _ _ h (Or.inl rfl)
  · exact arith_err_all s st2 _ _ h (Or.inr rfl)

/-- Witness for C10: the concrete RANDINT step pushes the int 2, and ADD on
[1.0, int 2] raises. -/
theorem c10_randint_arithmetic_witness :
    do_RANDINT randintState = .ok ({ randintState with stack := randintState.stack.push (.IntVal 2), randz := [] }, false) ∧
    intAddState.stack.popn 2 = .ok ([.Number 1, .IntVal 2], ⟨[], []⟩) ∧
    do_ADD intAddState = .error .ArithmeticError := by
  have hr : do_RANDINT randintState = .ok ({ randintState with stack := randintState.stack.push (.IntVal 2), randz := [] }, false) := by
    with_unfolding_all decide
  have hp : intAddState.stack.popn 2 = .ok ([.Number 1, .IntVal 2], ⟨[], []⟩) := by
    with_unfolding_all decide
  exact ⟨hr, hp, (c10_randint_arithmetic.2.2.1 intAddState ⟨[], []⟩ 2 (.Number 1)
    (Or.inr hp)).1⟩
